import Mathlib

/-!
Verification of the simulacat scenario-resolution engine and process
supervisor. Definitions are shallow embeddings of the Python source
(`scenario_config.py`, `scenario_models.py`, `scenario_factories.py`,
`orchestration.py`); `ConfigValidationError` raising is modelled with
`Except String`, Python dicts with ordered association lists, and Python
truthiness is made explicit where the source relies on it.
-/

set_option maxRecDepth 4000

/-- Python `repr` of a simple string: wrap in single quotes. -/
def pyQuote (s : String) : String := "\x27" ++ s ++ "\x27"

/-- First-match association-list lookup, modelling Python `dict.get`. -/
def alookup {α β : Type} [DecidableEq α] : List (α × β) → α → Option β
  | [], _ => none
  | (k, v) :: t, a => if k = a then some v else alookup t a

/-- Python `d[k] = v` on an ordered dict: replace in place, else append. -/
def upsert {α β : Type} [DecidableEq α] : List (α × β) → α → β → List (α × β)
  | [], a, b => [(a, b)]
  | (k, v) :: t, a, b => if k = a then (a, b) :: t else (k, v) :: upsert t a b

/-- Effectful map returning the first error, modelling a Python list
comprehension over a raising function. -/
def mapExcept {α β : Type} (f : α → Except String β) : List α → Except String (List β)
  | [] => .ok []
  | a :: as =>
    match f a with
    | .error e => .error e
    | .ok b =>
      match mapExcept f as with
      | .error e => .error e
      | .ok bs => .ok (b :: bs)

/-- Effectful left fold returning the first error, modelling a Python
`for` loop over mutable state inside a raising function. -/
def foldExcept {σ α : Type} (f : σ → α → Except String σ) (init : σ) :
    List α → Except String σ
  | [] => .ok init
  | a :: as =>
    match f init a with
    | .error e => .error e
    | .ok s => foldExcept f s as

/-- Effectful iteration, modelling a Python `for` loop used only for checks. -/
def forExcept {α : Type} (f : α → Except String Unit) : List α → Except String Unit
  | [] => .ok ()
  | a :: as =>
    match f a with
    | .error e => .error e
    | .ok _ => forExcept f as

/-- Python `str.isspace` on the ASCII whitespace characters this codebase
can encounter. -/
def pyIsSpace (c : Char) : Bool :=
  c = ' ' || c = '\t' || c = '\n' || c = '\r' || c = '\x0b' || c = '\x0c'

/-- Python `not value.strip()`: the string is empty or all-whitespace. -/
def pyIsBlank (s : String) : Bool := s.data.all pyIsSpace

/-- Python `value.strip()` as a character-list transform. -/
def pyStripChars (cs : List Char) : List Char :=
  ((cs.dropWhile pyIsSpace).reverse.dropWhile pyIsSpace).reverse

/-- `_require_text`: reject empty or whitespace-only strings
(`not value.strip()`); in this typed embedding the value is always a string. -/
def requireText (value : String) (label : String) : Except String String :=
  if pyIsBlank value then .error (label ++ " must be a non-empty string") else .ok value

/-- `_require_positive_int`: reject values `<= 0` (the `bool` masquerading
check is a dynamic-typing artefact with no counterpart for a typed `Int`). -/
def requirePositiveInt (value : Int) (label : String) : Except String Int :=
  if value ≤ 0 then .error (label ++ " must be a positive integer") else .ok value

/-- Loop of `_ensure_unique`: `seen` is kept as an insertion-ordered list,
used only for membership, mirroring the Python `set`. -/
def ensureUniqueAux (label : String) : List String → List String → Except String (List String)
  | [], seen => .ok seen
  | v :: rest, seen =>
    if v ∈ seen then .error ("Duplicate " ++ label ++ ": " ++ pyQuote v)
    else ensureUniqueAux label rest (seen ++ [v])

/-- `_ensure_unique`: raise on the first repeated value, return the values. -/
def ensureUnique (values : List String) (label : String) : Except String (List String) :=
  ensureUniqueAux label values []

/-- `_parse_repo_reference`: require a slash, then `value.split("/", 1)` —
the part before the first slash and the remainder after it. -/
def parseRepoReference (value : String) : Except String (String × String) :=
  if '/' ∈ value.data then
    match requireText (String.mk (value.data.takeWhile (fun c => c ≠ '/')))
        "Token repository owner" with
    | .error e => .error e
    | .ok owner =>
      match requireText (String.mk ((value.data.dropWhile (fun c => c ≠ '/')).drop 1))
          "Token repository name" with
      | .error e => .error e
      | .ok repo => .ok (owner, repo)
  else .error "Token repository must be in the form \x27owner/repo\x27"

/-- `_select_auth_token_value`: choose the active credential from the
ordered token pool and the optional explicit default. -/
def selectAuthTokenValue (tokenValues : List String) (defaultToken : Option String) :
    Except String (Option String) :=
  match tokenValues with
  | [] =>
    match defaultToken with
    | some _ => .error "Default token must match one of the configured tokens"
    | none => .ok none
  | v :: rest =>
    match defaultToken with
    | some d =>
      match requireText d "Default token" with
      | .error e => .error e
      | .ok selected =>
        if selected ∈ v :: rest then .ok (some selected)
        else .error "Default token must match one of the configured tokens"
    | none =>
      match rest with
      | [] => .ok (some v)
      | _ => .error "Multiple tokens configured but no default_token set"

/-- `scenario_models.User` (dataclass fields, in declaration order). -/
structure User where
  login : String
  organizations : List String := []
  name : Option String := none
  bio : Option String := none
  email : Option String := none
  userId : Option Int := none
deriving DecidableEq, Repr

/-- `scenario_models.Organization`. -/
structure Organization where
  login : String
  name : Option String := none
  description : Option String := none
  email : Option String := none
  orgId : Option Int := none
deriving DecidableEq, Repr

/-- `scenario_models.AccessToken`. -/
structure AccessToken where
  value : String
  owner : String
  permissions : List String := []
  repositories : List String := []
  repositoryVisibility : Option String := none
deriving DecidableEq, Repr

/-- `scenario_models.DefaultBranch`. -/
structure DefaultBranch where
  name : String
  sha : Option String := none
  isProtected : Option Bool := none
deriving DecidableEq, Repr

/-- `scenario_models.Repository`. -/
structure Repository where
  owner : String
  name : String
  description : Option String := none
  isPrivate : Bool := false
  defaultBranch : Option DefaultBranch := none
  repoId : Option Int := none
deriving DecidableEq, Repr

/-- `scenario_models.Branch`. -/
structure Branch where
  owner : String
  repository : String
  name : String
  sha : Option String := none
  isProtected : Option Bool := none
deriving DecidableEq, Repr

/-- `DefaultBranch.to_branch`. -/
def DefaultBranch.toBranch (db : DefaultBranch) (owner repository : String) : Branch :=
  { owner := owner, repository := repository, name := db.name,
    sha := db.sha, isProtected := db.isProtected }

/-- `scenario_models.Issue`. -/
structure Issue where
  owner : String
  repository : String
  number : Int
  title : String
  body : Option String := none
  state : String := "open"
  author : Option String := none
deriving DecidableEq, Repr

/-- `scenario_models.PullRequest`. -/
structure PullRequest where
  owner : String
  repository : String
  number : Int
  title : String
  body : Option String := none
  state : String := "open"
  author : Option String := none
  baseBranch : Option String := none
  headBranch : Option String := none
  isDraft : Bool := false
deriving DecidableEq, Repr

/-- Modelled from the spec: the `GitHubApp` class body is absent from the
provided sources (only imports, factories, validators and tests use it).
Spec §3 IntegrationApp: slug (identity), display name, optional numeric id,
optional owning account/organization — matching the fields read by
`scenario_config._validate_apps` and constructed in the tests. -/
structure GitHubApp where
  appSlug : String
  name : String
  appId : Option Int := none
  owner : Option String := none
deriving DecidableEq, Repr

/-- Modelled from the spec: the `AppInstallation` class body is absent from
the provided sources. Spec §3 IntegrationInstallation: numeric installation
id (identity), app slug reference, owning account, repository scope
references, permission labels, optional embedded credential value — matching
the fields read by `scenario_config._validate_app_installations`. -/
structure AppInstallation where
  installationId : Int
  appSlug : String
  account : String
  repositories : List String := []
  permissions : List String := []
  accessToken : Option String := none
deriving DecidableEq, Repr

/-- `scenario_config.ScenarioConfig` (the `_indexes` memoization slot is
excluded: it is `compare=False` and a pure cache). -/
structure ScenarioConfig where
  users : List User := []
  organizations : List Organization := []
  repositories : List Repository := []
  branches : List Branch := []
  issues : List Issue := []
  pullRequests : List PullRequest := []
  tokens : List AccessToken := []
  apps : List GitHubApp := []
  appInstallations : List AppInstallation := []
  defaultToken : Option String := none
deriving DecidableEq, Repr

/-- Repository identity key `(owner, name)`. -/
abbrev RepositoryKey := String × String

/-- Per-repository branch map, keyed by branch name (ordered dict). -/
abbrev BranchMap := List (String × Branch)

/-- `branch_index`: `(owner, repo) → name → Branch` as nested ordered dicts. -/
abbrev BranchIndex := List (RepositoryKey × BranchMap)

/-- `_ScenarioIndexes` (sets kept as insertion-ordered lists). -/
structure ScenarioIndexes where
  orgLogins : List String
  userLogins : List String
  repoIndex : List (RepositoryKey × Repository)
  branchIndex : BranchIndex
  appSlugs : List String
deriving DecidableEq, Repr

/-- `_ALLOWED_REPOSITORY_VISIBILITIES`. -/
def allowedRepositoryVisibilities : List String := ["all", "private", "public"]

/-- `ScenarioConfig._validate_organizations`. -/
def validateOrganizations (organizations : List Organization) : Except String (List String) :=
  match mapExcept (fun org => requireText org.login "Organization login") organizations with
  | .error e => .error e
  | .ok logins => ensureUnique logins "organization login"

/-- Inner loop of `_validate_users`: check one user's organization references. -/
def validateUserOrgs (user : User) (orgLogins : List String) : Except String Unit :=
  forExcept
    (fun org =>
      match requireText org "User organization" with
      | .error e => .error e
      | .ok _ =>
        if org ∈ orgLogins then .ok ()
        else
          .error ("User organization must refer to a defined organization (missing "
            ++ pyQuote org ++ " for user " ++ pyQuote user.login ++ ")"))
    user.organizations

/-- `ScenarioConfig._validate_users`. -/
def validateUsers (users : List User) (orgLogins : List String) : Except String (List String) :=
  match
    mapExcept
      (fun user =>
        match requireText user.login "User login" with
        | .error e => .error e
        | .ok login =>
          match validateUserOrgs user orgLogins with
          | .error e => .error e
          | .ok _ => .ok login)
      users
  with
  | .error e => .error e
  | .ok logins => ensureUnique logins "user login"

/-- Body of the `_validate_repositories` loop for one repository. -/
def validateRepositoryStep (userLogins orgLogins : List String)
    (repoIndex : List (RepositoryKey × Repository)) (repo : Repository) :
    Except String (List (RepositoryKey × Repository)) :=
  match requireText repo.owner "Repository owner" with
  | .error e => .error e
  | .ok owner =>
    match requireText repo.name "Repository name" with
    | .error e => .error e
    | .ok name =>
      if owner ∈ userLogins ∨ owner ∈ orgLogins then
        if (alookup repoIndex (owner, name)).isSome then
          .error ("Duplicate repository definition: " ++ owner ++ "/" ++ name)
        else
          match repo.defaultBranch with
          | none => .ok (repoIndex ++ [((owner, name), repo)])
          | some db =>
            match requireText db.name "Default branch name" with
            | .error e => .error e
            | .ok _ =>
              match db.sha with
              | none => .ok (repoIndex ++ [((owner, name), repo)])
              | some sha =>
                match requireText sha "Default branch sha" with
                | .error e => .error e
                | .ok _ => .ok (repoIndex ++ [((owner, name), repo)])
      else
        .error ("Repository owner must be a defined user or organization (got "
          ++ pyQuote owner ++ " for " ++ owner ++ "/" ++ name ++ ")")

/-- `ScenarioConfig._validate_repositories`. -/
def validateRepositories (repositories : List Repository)
    (userLogins orgLogins : List String) :
    Except String (List (RepositoryKey × Repository)) :=
  foldExcept (validateRepositoryStep userLogins orgLogins) [] repositories

/-- Body of the `_validate_tokens` loop for one token; the state is the
accumulated `token_values` list. -/
def validateTokenStep (userLogins orgLogins : List String)
    (repoIndex : List (RepositoryKey × Repository))
    (tokenValues : List String) (token : AccessToken) : Except String (List String) :=
  match requireText token.value "Token value" with
  | .error e => .error e
  | .ok value =>
    match requireText token.owner "Token owner" with
    | .error e => .error e
    | .ok owner =>
      if owner ∈ userLogins ∨ owner ∈ orgLogins then
        match mapExcept (fun p => requireText p "Token permission") token.permissions with
        | .error e => .error e
        | .ok permissions =>
          match ensureUnique permissions ("token permission for " ++ pyQuote value) with
          | .error e => .error e
          | .ok _ =>
            match mapExcept (fun r => requireText r "Token repository") token.repositories with
            | .error e => .error e
            | .ok repositories =>
              match
                ensureUnique repositories
                  ("token repository reference for " ++ pyQuote value)
              with
              | .error e => .error e
              | .ok _ =>
                match
                  forExcept
                    (fun repo =>
                      match parseRepoReference repo with
                      | .error e => .error e
                      | .ok key =>
                        if (alookup repoIndex key).isSome then .ok ()
                        else
                          .error
                            ("Token repository must reference a configured repository (missing "
                              ++ pyQuote repo ++ " for token " ++ pyQuote value ++ ")"))
                    repositories
                with
                | .error e => .error e
                | .ok _ =>
                  match token.repositoryVisibility with
                  | none => .ok (tokenValues ++ [value])
                  | some vis =>
                    if vis ∈ allowedRepositoryVisibilities then .ok (tokenValues ++ [value])
                    else
                      .error
                        ("Token repository visibility must be one of [\x27all\x27, \x27private\x27, \x27public\x27]")
      else
        .error ("Token owner must be a defined user or organization (got "
          ++ pyQuote owner ++ " for token " ++ pyQuote value ++ ")")

/-- `ScenarioConfig._validate_tokens`. -/
def validateTokens (tokens : List AccessToken) (userLogins orgLogins : List String)
    (repoIndex : List (RepositoryKey × Repository)) : Except String Unit :=
  match foldExcept (validateTokenStep userLogins orgLogins repoIndex) [] tokens with
  | .error e => .error e
  | .ok tokenValues =>
    match ensureUnique tokenValues "token value" with
    | .error e => .error e
    | .ok _ => .ok ()

/-- Body of the `_validate_apps` loop for one app; the state is the slug list. -/
def validateAppStep (userLogins orgLogins : List String)
    (slugs : List String) (app : GitHubApp) : Except String (List String) :=
  match requireText app.appSlug "App slug" with
  | .error e => .error e
  | .ok _ =>
    match requireText app.name "App name" with
    | .error e => .error e
    | .ok _ =>
      match
        (match app.appId with
        | none => .ok ()
        | some appId =>
          match requirePositiveInt appId "App ID" with
          | .error e => .error e
          | .ok _ => Except.ok () : Except String Unit)
      with
      | .error e => .error e
      | .ok _ =>
        match
          (match app.owner with
          | none => .ok ()
          | some o =>
            match requireText o "App owner" with
            | .error e => .error e
            | .ok owner =>
              if owner ∈ userLogins ∨ owner ∈ orgLogins then Except.ok ()
              else
                .error ("App owner must be a defined user or organization (got "
                  ++ pyQuote owner ++ " for app " ++ pyQuote app.appSlug ++ ")")
            : Except String Unit)
        with
        | .error e => .error e
        | .ok _ => .ok (slugs ++ [app.appSlug])

/-- `ScenarioConfig._validate_apps`. -/
def validateApps (apps : List GitHubApp) (userLogins orgLogins : List String) :
    Except String (List String) :=
  match foldExcept (validateAppStep userLogins orgLogins) [] apps with
  | .error e => .error e
  | .ok slugs => ensureUnique slugs "app slug"

/-- Python `str()` of the integers appearing in validation messages. -/
def pyStrInt (n : Int) : String := toString n

/-- Body of the `_validate_app_installations` loop; the state is the pair
of accumulated installation-id strings and the growing token-value pool. -/
def validateAppInstallationStep (appSlugs userLogins orgLogins : List String)
    (repoIndex : List (RepositoryKey × Repository))
    (state : List String × List String) (installation : AppInstallation) :
    Except String (List String × List String) :=
  match requirePositiveInt installation.installationId "Installation ID" with
  | .error e => .error e
  | .ok _ =>
    let installationIds := state.1 ++ [pyStrInt installation.installationId]
    match requireText installation.appSlug "Installation app slug" with
    | .error e => .error e
    | .ok slug =>
      if slug ∈ appSlugs then
        match requireText installation.account "Installation account" with
        | .error e => .error e
        | .ok account =>
          if account ∈ userLogins ∨ account ∈ orgLogins then
            match
              forExcept
                (fun repoRef =>
                  match requireText repoRef "Installation repository" with
                  | .error e => .error e
                  | .ok _ =>
                    match parseRepoReference repoRef with
                    | .error e => .error e
                    | .ok key =>
                      if (alookup repoIndex key).isSome then .ok ()
                      else
                        .error
                          ("Installation repository must reference a configured repository (missing "
                            ++ pyQuote repoRef ++ " for installation "
                            ++ pyStrInt installation.installationId ++ ")"))
                installation.repositories
            with
            | .error e => .error e
            | .ok _ =>
              match
                mapExcept (fun perm => requireText perm "Installation permission")
                  installation.permissions
              with
              | .error e => .error e
              | .ok permissions =>
                match
                  ensureUnique permissions
                    ("installation permission for installation "
                      ++ pyStrInt installation.installationId)
                with
                | .error e => .error e
                | .ok _ =>
                  match installation.accessToken with
                  | none => .ok (installationIds, state.2)
                  | some tok =>
                    match requireText tok "Installation access token" with
                    | .error e => .error e
                    | .ok value =>
                      if value ∈ state.2 then
                        .error ("Duplicate token value: installation "
                          ++ pyStrInt installation.installationId
                          ++ " access_token duplicates a standalone token")
                      else .ok (installationIds, state.2 ++ [value])
          else
            .error ("Installation account must be a defined user or organization (got "
              ++ pyQuote account ++ " for installation "
              ++ pyStrInt installation.installationId ++ ")")
      else
        .error ("Installation app must reference a defined GitHub App (got "
          ++ pyQuote slug ++ " for installation "
          ++ pyStrInt installation.installationId ++ ")")

/-- `ScenarioConfig._validate_app_installations`; the token pool is seeded
with the standalone token values. -/
def validateAppInstallations (appInstallations : List AppInstallation)
    (appSlugs userLogins orgLogins : List String)
    (repoIndex : List (RepositoryKey × Repository)) (tokens : List AccessToken) :
    Except String Unit :=
  match
    foldExcept (validateAppInstallationStep appSlugs userLogins orgLogins repoIndex)
      ([], tokens.map (·.value)) appInstallations
  with
  | .error e => .error e
  | .ok state =>
    match ensureUnique state.1 "installation ID" with
    | .error e => .error e
    | .ok _ => .ok ()

/-- The combined token pool: standalone token values then non-null
installation access tokens, in declaration order. -/
def collectAllTokenValues (tokens : List AccessToken)
    (appInstallations : List AppInstallation) : List String :=
  tokens.map (·.value) ++ appInstallations.filterMap (·.accessToken)

/-- `ScenarioConfig._validate_default_token`. -/
def validateDefaultToken (tokens : List AccessToken)
    (appInstallations : List AppInstallation) (defaultToken : Option String) :
    Except String Unit :=
  match selectAuthTokenValue (collectAllTokenValues tokens appInstallations) defaultToken with
  | .error e => .error e
  | .ok _ => .ok ()

/-- Python truthiness conflict test on shas:
`existing.sha and incoming.sha and existing.sha != incoming.sha`. -/
def shaConflict (a b : Option String) : Bool :=
  match a, b with
  | some x, some y => x ≠ "" && y ≠ "" && x ≠ y
  | _, _ => false

/-- Conflict test on protection flags: both set and different. -/
def protectedConflict (a b : Option Bool) : Bool :=
  match a, b with
  | some x, some y => x ≠ y
  | _, _ => false

/-- `ScenarioConfig._validate_branch_overlap`. -/
def validateBranchOverlap (existing incoming : Branch) (key : RepositoryKey)
    (isDefault : Bool) : Except String Unit :=
  let mismatch :=
    (if shaConflict existing.sha incoming.sha then ["sha"] else [])
      ++ (if protectedConflict existing.isProtected incoming.isProtected
          then ["protected"] else [])
  if mismatch = [] then .ok ()
  else
    .error ("Conflicting " ++ (if isDefault then "default branch" else "branch")
      ++ " metadata for " ++ key.1 ++ "/" ++ key.2 ++ ":" ++ existing.name
      ++ " (" ++ String.intercalate ", " mismatch ++ " differs)")

/-- `ScenarioConfig._validate_branch_core`. -/
def validateBranchCore (branch : Branch)
    (repoIndex : List (RepositoryKey × Repository)) : Except String RepositoryKey :=
  match requireText branch.owner "Branch owner" with
  | .error e => .error e
  | .ok owner =>
    match requireText branch.repository "Branch repository" with
    | .error e => .error e
    | .ok repo =>
      match requireText branch.name "Branch name" with
      | .error e => .error e
      | .ok _ =>
        match
          (match branch.sha with
          | none => .ok ()
          | some sha =>
            match requireText sha "Branch sha" with
            | .error e => .error e
            | .ok _ => Except.ok () : Except String Unit)
        with
        | .error e => .error e
        | .ok _ =>
          if (alookup repoIndex (owner, repo)).isSome then .ok (owner, repo)
          else .error ("Branch refers to unknown repository " ++ owner ++ "/" ++ repo)

/-- Body of the `_validate_explicit_branches` loop for one branch. -/
def validateExplicitBranchStep (repoIndex : List (RepositoryKey × Repository))
    (branchIndex : BranchIndex) (branch : Branch) : Except String BranchIndex :=
  match validateBranchCore branch repoIndex with
  | .error e => .error e
  | .ok key =>
    let repoBranches := (alookup branchIndex key).getD []
    match
      (match alookup repoBranches branch.name with
      | none => .ok ()
      | some existing => validateBranchOverlap existing branch key false
        : Except String Unit)
    with
    | .error e => .error e
    | .ok _ => .ok (upsert branchIndex key (upsert repoBranches branch.name branch))

/-- `ScenarioConfig._validate_explicit_branches`. -/
def validateExplicitBranches (branches : List Branch)
    (repoIndex : List (RepositoryKey × Repository)) : Except String BranchIndex :=
  foldExcept (validateExplicitBranchStep repoIndex) [] branches

/-- Python `existing.sha or default.sha`: the left value unless it is
`None` or the empty string. -/
def shaOr (a b : Option String) : Option String :=
  match a with
  | some s => if s = "" then b else some s
  | none => b

/-- `ScenarioConfig._merge_default_branch`. -/
def mergeDefaultBranch (key : RepositoryKey) (defaultBranch : DefaultBranch)
    (branchIndex : BranchIndex) : Except String BranchIndex :=
  let repoBranches := (alookup branchIndex key).getD []
  let defaultAsBranch := defaultBranch.toBranch key.1 key.2
  match alookup repoBranches defaultAsBranch.name with
  | none =>
    .ok (upsert branchIndex key (upsert repoBranches defaultAsBranch.name defaultAsBranch))
  | some existing =>
    match validateBranchOverlap existing defaultAsBranch key true with
    | .error e => .error e
    | .ok _ =>
      let merged : Branch :=
        { owner := existing.owner, repository := existing.repository,
          name := existing.name,
          sha := shaOr existing.sha defaultAsBranch.sha,
          isProtected :=
            match existing.isProtected with
            | some p => some p
            | none => defaultAsBranch.isProtected }
      .ok (upsert branchIndex key (upsert repoBranches existing.name merged))

/-- `ScenarioConfig._attach_default_branches`: walk the repository index in
order and merge each default-branch descriptor into the branch index. -/
def attachDefaultBranches (repoIndex : List (RepositoryKey × Repository))
    (branchIndex : BranchIndex) : Except String BranchIndex :=
  foldExcept
    (fun bi entry =>
      match entry.2.defaultBranch with
      | none => .ok bi
      | some db => mergeDefaultBranch entry.1 db bi)
    branchIndex repoIndex

/-- `ScenarioConfig._validate_branches`. -/
def validateBranches (branches : List Branch)
    (repoIndex : List (RepositoryKey × Repository)) : Except String BranchIndex :=
  match validateExplicitBranches branches repoIndex with
  | .error e => .error e
  | .ok branchIndex => attachDefaultBranches repoIndex branchIndex

/-- `ScenarioConfig._require_state`: membership in `{"open", "closed"}`.
The message renders `sorted(allowed)`. -/
def requireState (state : String) (label : String) : Except String Unit :=
  if state = "open" ∨ state = "closed" then .ok ()
  else .error (label ++ " must be one of [\x27closed\x27, \x27open\x27]")

/-- Number registry used by issue and pull-request validation:
per-repository sets of already-seen numbers. -/
abbrev NumberRegistry := List (RepositoryKey × List Int)

/-- Body of the `_validate_issues` loop for one issue. -/
def validateIssueStep (repoIndex : List (RepositoryKey × Repository))
    (issueNumbers : NumberRegistry) (issue : Issue) : Except String NumberRegistry :=
  match requireText issue.owner "Issue owner" with
  | .error e => .error e
  | .ok owner =>
    match requireText issue.repository "Issue repository" with
    | .error e => .error e
    | .ok repo =>
      match requirePositiveInt issue.number "Issue number" with
      | .error e => .error e
      | .ok number =>
        match requireText issue.title "Issue title" with
        | .error e => .error e
        | .ok _ =>
          match requireState issue.state "Issue state" with
          | .error e => .error e
          | .ok _ =>
            match
              (match issue.author with
              | none => .ok ()
              | some author =>
                match requireText author "Issue author" with
                | .error e => .error e
                | .ok _ => Except.ok () : Except String Unit)
            with
            | .error e => .error e
            | .ok _ =>
              if (alookup repoIndex (owner, repo)).isSome then
                let numbers := (alookup issueNumbers (owner, repo)).getD []
                if number ∈ numbers then
                  .error ("Duplicate issue number " ++ pyStrInt number
                    ++ " for " ++ owner ++ "/" ++ repo)
                else .ok (upsert issueNumbers (owner, repo) (numbers ++ [number]))
              else
                .error ("Issue refers to unknown repository " ++ owner ++ "/" ++ repo)

/-- `ScenarioConfig._validate_issues`. -/
def validateIssues (issues : List Issue)
    (repoIndex : List (RepositoryKey × Repository)) : Except String Unit :=
  match foldExcept (validateIssueStep repoIndex) [] issues with
  | .error e => .error e
  | .ok _ => .ok ()

/-- `ScenarioConfig._validate_pull_request_branches`: base and head names
must exist in the merged per-repository branch map. -/
def validatePullRequestBranches (pr : PullRequest) (key : RepositoryKey)
    (branchIndex : BranchIndex) : Except String Unit :=
  let repoBranches := (alookup branchIndex key).getD []
  forExcept
    (fun entry =>
      match entry.2 with
      | none => .ok ()
      | some name =>
        match requireText name ("Pull request " ++ entry.1 ++ " branch") with
        | .error e => .error e
        | .ok _ =>
          if (alookup repoBranches name).isSome then .ok ()
          else
            .error ("Pull request branch must reference a configured branch (missing "
              ++ pyQuote name ++ " for " ++ key.1 ++ "/" ++ key.2 ++ ")"))
    [("base", pr.baseBranch), ("head", pr.headBranch)]

/-- Body of the `_validate_pull_requests` loop for one pull request. -/
def validatePullRequestStep (repoIndex : List (RepositoryKey × Repository))
    (branchIndex : BranchIndex) (prNumbers : NumberRegistry) (pr : PullRequest) :
    Except String NumberRegistry :=
  match requireText pr.owner "Pull request owner" with
  | .error e => .error e
  | .ok owner =>
    match requireText pr.repository "Pull request repository" with
    | .error e => .error e
    | .ok repo =>
      match requirePositiveInt pr.number "Pull request number" with
      | .error e => .error e
      | .ok number =>
        match requireText pr.title "Pull request title" with
        | .error e => .error e
        | .ok _ =>
          match requireState pr.state "Pull request state" with
          | .error e => .error e
          | .ok _ =>
            match
              (match pr.author with
              | none => .ok ()
              | some author =>
                match requireText author "Pull request author" with
                | .error e => .error e
                | .ok _ => Except.ok () : Except String Unit)
            with
            | .error e => .error e
            | .ok _ =>
              if (alookup repoIndex (owner, repo)).isSome then
                let numbers := (alookup prNumbers (owner, repo)).getD []
                if number ∈ numbers then
                  .error ("Duplicate pull request number " ++ pyStrInt number
                    ++ " for " ++ owner ++ "/" ++ repo)
                else
                  match validatePullRequestBranches pr (owner, repo) branchIndex with
                  | .error e => .error e
                  | .ok _ => .ok (upsert prNumbers (owner, repo) (numbers ++ [number]))
              else
                .error ("Pull request refers to unknown repository " ++ owner ++ "/" ++ repo)

/-- `ScenarioConfig._validate_pull_requests`. -/
def validatePullRequests (pullRequests : List PullRequest)
    (repoIndex : List (RepositoryKey × Repository)) (branchIndex : BranchIndex) :
    Except String Unit :=
  match foldExcept (validatePullRequestStep repoIndex branchIndex) [] pullRequests with
  | .error e => .error e
  | .ok _ => .ok ()

/-- `ScenarioConfig._build_indexes`: the fixed validation order —
organizations, users, repositories, tokens, apps, app installations,
default token, branches. -/
def buildIndexes (s : ScenarioConfig) : Except String ScenarioIndexes :=
  match validateOrganizations s.organizations with
  | .error e => .error e
  | .ok orgLogins =>
    match validateUsers s.users orgLogins with
    | .error e => .error e
    | .ok userLogins =>
      match validateRepositories s.repositories userLogins orgLogins with
      | .error e => .error e
      | .ok repoIndex =>
        match validateTokens s.tokens userLogins orgLogins repoIndex with
        | .error e => .error e
        | .ok _ =>
          match validateApps s.apps userLogins orgLogins with
          | .error e => .error e
          | .ok appSlugs =>
            match
              validateAppInstallations s.appInstallations appSlugs userLogins
                orgLogins repoIndex s.tokens
            with
            | .error e => .error e
            | .ok _ =>
              match validateDefaultToken s.tokens s.appInstallations s.defaultToken with
              | .error e => .error e
              | .ok _ =>
                match validateBranches s.branches repoIndex with
                | .error e => .error e
                | .ok branchIndex =>
                  .ok ⟨orgLogins, userLogins, repoIndex, branchIndex, appSlugs⟩

/-- `ScenarioConfig.validate` (with its default `include_unsupported=True`):
build the indexes, then validate issues and pull requests. -/
def ScenarioConfig.validate (s : ScenarioConfig) (includeUnsupported : Bool := true) :
    Except String Unit :=
  match buildIndexes s with
  | .error e => .error e
  | .ok ix =>
    if includeUnsupported then
      match validateIssues s.issues ix.repoIndex with
      | .error e => .error e
      | .ok _ => validatePullRequests s.pullRequests ix.repoIndex ix.branchIndex
    else .ok ()

/-- JSON values as produced by `json.loads` / consumed by `json.dumps`
(floats are not needed by any claim and are omitted). -/
inductive Json where
  | null
  | bool (b : Bool)
  | int (n : Int)
  | str (s : String)
  | arr (elems : List Json)
  | obj (fields : List (String × Json))

/-- `User.to_dict`. -/
def User.toDict (u : User) : List (String × Json) :=
  [("login", .str u.login), ("organizations", .arr (u.organizations.map .str))]
    ++ (match u.name with | some v => [("name", Json.str v)] | none => [])
    ++ (match u.bio with | some v => [("bio", Json.str v)] | none => [])
    ++ (match u.email with | some v => [("email", Json.str v)] | none => [])
    ++ (match u.userId with | some v => [("id", Json.int v)] | none => [])

/-- `Organization.to_dict`. -/
def Organization.toDict (o : Organization) : List (String × Json) :=
  [("login", .str o.login)]
    ++ (match o.name with | some v => [("name", Json.str v)] | none => [])
    ++ (match o.description with | some v => [("description", Json.str v)] | none => [])
    ++ (match o.email with | some v => [("email", Json.str v)] | none => [])
    ++ (match o.orgId with | some v => [("id", Json.int v)] | none => [])

/-- `Repository.to_dict` (default branch serializes as its name only). -/
def Repository.toDict (r : Repository) : List (String × Json) :=
  [("owner", .str r.owner), ("name", .str r.name), ("private", .bool r.isPrivate)]
    ++ (match r.description with | some v => [("description", Json.str v)] | none => [])
    ++ (match r.repoId with | some v => [("id", Json.int v)] | none => [])
    ++ (match r.defaultBranch with
        | some db => [("default_branch", Json.str db.name)] | none => [])

/-- `Branch.to_dict`. -/
def Branch.toDict (b : Branch) : List (String × Json) :=
  [("owner", .str b.owner), ("repository", .str b.repository), ("name", .str b.name)]
    ++ (match b.isProtected with | some v => [("protected", Json.bool v)] | none => [])
    ++ (match b.sha with | some v => [("sha", Json.str v)] | none => [])

/-- `Issue.to_dict`. -/
def Issue.toDict (i : Issue) : List (String × Json) :=
  [("owner", .str i.owner), ("repository", .str i.repository),
    ("number", .int i.number), ("title", .str i.title), ("state", .str i.state)]
    ++ (match i.body with | some v => [("body", Json.str v)] | none => [])
    ++ (match i.author with
        | some v => [("user", Json.obj [("login", Json.str v)])] | none => [])

/-- `PullRequest.to_dict`. -/
def PullRequest.toDict (pr : PullRequest) : List (String × Json) :=
  [("owner", .str pr.owner), ("repository", .str pr.repository),
    ("number", .int pr.number), ("title", .str pr.title), ("state", .str pr.state)]
    ++ (match pr.body with | some v => [("body", Json.str v)] | none => [])
    ++ (match pr.author with
        | some v => [("user", Json.obj [("login", Json.str v)])] | none => [])
    ++ (match pr.baseBranch with
        | some v => [("base", Json.obj [("ref", Json.str v)])] | none => [])
    ++ (match pr.headBranch with
        | some v => [("head", Json.obj [("ref", Json.str v)])] | none => [])
    ++ (if pr.isDraft then [("draft", Json.bool true)] else [])

/-- The flattened merged branch list: `branch_index.values()` then each
per-repository dict's `.values()`, in insertion order. -/
def flattenBranchIndex (branchIndex : BranchIndex) : List Branch :=
  (branchIndex.map Prod.snd).flatMap (fun repoBranches => repoBranches.map Prod.snd)

/-- `ScenarioConfig.to_simulator_config` (its default is
`include_unsupported=False`): validates, then serializes the supported
entity collections; issues and pull requests are opt-in. -/
def toSimulatorConfig (s : ScenarioConfig) (includeUnsupported : Bool := false) :
    Except String (List (String × Json)) :=
  match buildIndexes s with
  | .error e => .error e
  | .ok ix =>
    match
      (if includeUnsupported then
        match validateIssues s.issues ix.repoIndex with
        | .error e => .error e
        | .ok _ => validatePullRequests s.pullRequests ix.repoIndex ix.branchIndex
      else .ok () : Except String Unit)
    with
    | .error e => .error e
    | .ok _ =>
      let base : List (String × Json) :=
        [("users", .arr (s.users.map (fun u => .obj u.toDict))),
         ("organizations", .arr (s.organizations.map (fun o => .obj o.toDict))),
         ("repositories", .arr (s.repositories.map (fun r => .obj r.toDict))),
         ("branches", .arr ((flattenBranchIndex ix.branchIndex).map (fun b => .obj b.toDict))),
         ("blobs", .arr [])]
      .ok
        (if includeUnsupported then
          base ++ [("issues", .arr (s.issues.map (fun i => .obj i.toDict))),
                   ("pull_requests", .arr (s.pullRequests.map (fun pr => .obj pr.toDict)))]
        else base)

/-- `ScenarioConfig.resolve_auth_token`: validate, then delegate to the
selector over the combined standalone + installation token pool. -/
def resolveAuthToken (s : ScenarioConfig) : Except String (Option String) :=
  match buildIndexes s with
  | .error e => .error e
  | .ok _ =>
    selectAuthTokenValue (collectAllTokenValues s.tokens s.appInstallations) s.defaultToken

/-- One item of the `_merge_entries` loop: keep the first occurrence of an
identity key, accept an identical later occurrence, and reject a different
value for the same key. -/
def mergeEntryStep {T Key : Type} [DecidableEq Key] [DecidableEq T]
    (label : String) (key : T → Key) (formatKey : Key → String)
    (merged : List (Key × T)) (item : T) : Except String (List (Key × T)) :=
  match alookup merged (key item) with
  | none => .ok (merged ++ [(key item, item)])
  | some existing =>
    if existing = item then .ok merged
    else .error ("Conflicting " ++ label ++ " definition for " ++ formatKey (key item))

/-- `scenario_factories._merge_entries` for one entity collection: fold the
fragments left to right over `mergeEntryStep`. -/
def mergeEntries {T Key : Type} [DecidableEq Key] [DecidableEq T]
    (scenarios : List ScenarioConfig) (label : String) (key : T → Key)
    (formatKey : Key → String) (getter : ScenarioConfig → List T) :
    Except String (List T) :=
  match
    foldExcept
      (fun merged scenario =>
        foldExcept (mergeEntryStep label key formatKey) merged (getter scenario))
      [] scenarios
  with
  | .error e => .error e
  | .ok merged => .ok (merged.map Prod.snd)

/-- `scenario_factories.merge_scenarios`: merge the eight entity
collections; `tokens` and `default_token` are not carried over (the merged
`ScenarioConfig` is built without them). -/
def mergeScenarios (scenarios : List ScenarioConfig) : Except String ScenarioConfig :=
  match scenarios with
  | [] => .ok {}
  | _ =>
    match mergeEntries scenarios "user" (fun u => u.login) id (fun s => s.users) with
    | .error e => .error e
    | .ok users =>
      match
        mergeEntries scenarios "organization" (fun o => o.login) id
          (fun s => s.organizations)
      with
      | .error e => .error e
      | .ok organizations =>
        match
          mergeEntries scenarios "repository" (fun r => (r.owner, r.name))
            (fun k => k.1 ++ "/" ++ k.2) (fun s => s.repositories)
        with
        | .error e => .error e
        | .ok repositories =>
          match
            mergeEntries scenarios "branch" (fun b => (b.owner, b.repository, b.name))
              (fun k => k.1 ++ "/" ++ k.2.1 ++ ":" ++ k.2.2) (fun s => s.branches)
          with
          | .error e => .error e
          | .ok branches =>
            match
              mergeEntries scenarios "issue" (fun i => (i.owner, i.repository, i.number))
                (fun k => k.1 ++ "/" ++ k.2.1 ++ "#" ++ pyStrInt k.2.2) (fun s => s.issues)
            with
            | .error e => .error e
            | .ok issues =>
              match
                mergeEntries scenarios "pull request"
                  (fun pr => (pr.owner, pr.repository, pr.number))
                  (fun k => k.1 ++ "/" ++ k.2.1 ++ "#" ++ pyStrInt k.2.2)
                  (fun s => s.pullRequests)
              with
              | .error e => .error e
              | .ok pullRequests =>
                match
                  mergeEntries scenarios "app" (fun a => a.appSlug) id (fun s => s.apps)
                with
                | .error e => .error e
                | .ok apps =>
                  match
                    mergeEntries scenarios "app installation"
                      (fun inst => inst.installationId) pyStrInt
                      (fun s => s.appInstallations)
                  with
                  | .error e => .error e
                  | .ok appInstallations =>
                    .ok { users := users, organizations := organizations,
                          repositories := repositories, branches := branches,
                          issues := issues, pullRequests := pullRequests,
                          apps := apps, appInstallations := appInstallations }

/-- Decimal-digit parse for `pyIntOfString`. -/
def digitsToNat : List Char → Option Nat
  | [] => none
  | cs =>
    if cs.all Char.isDigit then
      some (cs.foldl (fun acc c => acc * 10 + (c.toNat - 48)) 0)
    else none

/-- Python `int(<str>)`: optional surrounding whitespace, optional sign,
then decimal digits (underscore grouping is not used by this codebase). -/
def pyIntOfString (s : String) : Option Int :=
  match pyStripChars s.data with
  | '+' :: rest => (digitsToNat rest).map (fun n => (n : Int))
  | '-' :: rest => (digitsToNat rest).map (fun n => -(n : Int))
  | ds => (digitsToNat ds).map (fun n => (n : Int))

/-- Python `int(value)` on a value taken from a parsed JSON object:
`KeyError` for a missing key, `TypeError` for `None`/lists/dicts, and
`ValueError` for non-numeric strings all land in `none`; ints pass
through, booleans convert to 0/1, numeric strings parse. -/
def pyInt : Option Json → Option Int
  | none => none
  | some .null => none
  | some (.bool b) => some (if b then 1 else 0)
  | some (.int n) => some n
  | some (.str s) => pyIntOfString s
  | some (.arr _) => none
  | some (.obj _) => none

/-- `evt.get(k)` on a parsed JSON object. -/
def objLookup : Json → String → Option Json
  | .obj fields, k => alookup fields k
  | _, _ => none

/-- `evt.get("event") == name`: Python equality of an arbitrary JSON value
against a string literal. -/
def isEventValue (j : Option Json) (name : String) : Bool :=
  match j with
  | some (.str s) => s = name
  | _ => false

/-- Startup failures raised through `_cleanup_failed_process`, kept
structural: the invalid-listening message carries the offending event, the
error-event message carries the reported `"message"` value, and the
deadline/exit failure carries the accumulated-output diagnostic. -/
inductive StartFailure where
  | invalidListening (evt : Json)
  | simulatorError (message : Json)
  | noListeningPort

/-- Classification of one parsed stdout object by
`orchestration._process_stdout_line`: return a port, run cleanup and raise,
or ignore the line and keep waiting. -/
inductive LineOutcome where
  | portFound (port : Int)
  | cleanupAndFail (failure : StartFailure)
  | ignored

/-- `orchestration._process_stdout_line` on a parsed JSON object. -/
def processStdoutLine (evt : Json) : LineOutcome :=
  if isEventValue (objLookup evt "event") "listening" then
    match pyInt (objLookup evt "port") with
    | some port => .portFound port
    | none => .cleanupAndFail (.invalidListening evt)
  else if isEventValue (objLookup evt "event") "error" then
    .cleanupAndFail (.simulatorError ((objLookup evt "message").getD (.str "Unknown error")))
  else .ignored

/-- Whether a line is irrelevant to the handshake: not a JSON object
(`_parse_event` returned `None`) or an object classified as ignored. -/
def lineIgnored (line : Option Json) : Bool :=
  match line with
  | none => true
  | some evt =>
    match processStdoutLine evt with
    | .ignored => true
    | _ => false

/-- Result of the startup handshake: a listening port, or a failure raised
after `_cleanup_failed_process` (drain, terminate, raise). -/
inductive StartResult where
  | listening (port : Int)
  | failed (failure : StartFailure)

/-- The `_wait_for_port` controller loop over the ordered stream of parsed
output lines (each element is `_parse_event`'s result for one line): the
reader thread preserves stream order into the queue and the controller
consumes in order, so classification always reflects the earliest relevant
record; an exhausted stream is the deadline/exit path. -/
def waitForPort : List (Option Json) → StartResult
  | [] => .failed .noListeningPort
  | none :: rest => waitForPort rest
  | some evt :: rest =>
    match processStdoutLine evt with
    | .portFound port => .listening port
    | .cleanupAndFail f => .failed f
    | .ignored => waitForPort rest

/-- `orchestration._empty_initial_state`. -/
def emptyInitialState : List (String × Json) :=
  [("users", .arr []), ("organizations", .arr []), ("repositories", .arr []),
   ("branches", .arr []), ("blobs", .arr [])]

/-- `orchestration._write_config`'s effective configuration: start from the
minimal state and shallowly apply the caller's mapping over it
(`effective_config.update(dict(config))`). -/
def writeConfig (config : List (String × Json)) : List (String × Json) :=
  config.foldl (fun acc kv => upsert acc kv.1 kv.2) emptyInitialState

/-- Exceptions the supervisor's process primitives can raise: per
`subprocess` semantics, `terminate`/`kill` may raise `OSError` and `wait`
raises only `TimeoutExpired`. -/
inductive ProcExc where
  | osError
  | timeoutExpired
deriving DecidableEq, Repr

/-- Outcome of a bounded `proc.wait(timeout=...)`. -/
inductive WaitOutcome where
  | completed
  | timedOut
deriving DecidableEq, Repr

/-- One process handle's behaviour during a `stop_sim_process` call:
whether it has already exited, whether the terminate and kill signals
raise `OSError` (process already gone), and how each bounded wait ends. -/
structure ProcBehavior where
  alreadyExited : Bool
  terminateRaises : Bool
  gracefulWait : WaitOutcome
  killRaises : Bool
  killWait : WaitOutcome
deriving DecidableEq, Repr

/-- `proc.terminate()` / `proc.kill()`: `OSError` when the process is gone. -/
def pySignal (raises : Bool) : Except ProcExc Unit :=
  if raises then .error .osError else .ok ()

/-- `proc.wait(timeout=...)`: `TimeoutExpired` when the deadline passes. -/
def pyWait (outcome : WaitOutcome) : Except ProcExc Unit :=
  match outcome with
  | .completed => .ok ()
  | .timedOut => .error .timeoutExpired

/-- `contextlib.suppress(excs)` around a primitive. -/
def pySuppress (excs : List ProcExc) (body : Except ProcExc Unit) : Except ProcExc Unit :=
  match body with
  | .ok () => .ok ()
  | .error e => if e ∈ excs then .ok () else .error e

/-- Signals and waits issued during a `stop_sim_process` call. -/
inductive StopAction where
  | terminate
  | waitGraceful
  | kill
  | waitKill
deriving DecidableEq, Repr

/-- `orchestration.stop_sim_process`: no-op when already exited; otherwise
terminate (returning on `OSError`), graceful wait catching only
`TimeoutExpired`, then kill under `suppress(OSError)` and a final capped
wait under `suppress(TimeoutExpired, OSError)`. Returns the actions taken
and the propagated exception, if any. -/
def stopSimProcess (b : ProcBehavior) : List StopAction × Except ProcExc Unit :=
  if b.alreadyExited then ([], .ok ())
  else
    match pySignal b.terminateRaises with
    | .error .osError => ([.terminate], .ok ())
    | .error e => ([.terminate], .error e)
    | .ok () =>
      match pyWait b.gracefulWait with
      | .ok () => ([.terminate, .waitGraceful], .ok ())
      | .error .timeoutExpired =>
        match pySuppress [.osError] (pySignal b.killRaises) with
        | .error e => ([.terminate, .waitGraceful, .kill], .error e)
        | .ok () =>
          match pySuppress [.timeoutExpired, .osError] (pyWait b.killWait) with
          | .error e => ([.terminate, .waitGraceful, .kill, .waitKill], .error e)
          | .ok () => ([.terminate, .waitGraceful, .kill, .waitKill], .ok ())
      | .error e => ([.terminate, .waitGraceful], .error e)

/-- A dynamically-typed collection argument as Python callers may pass it:
either a single string (the caller mistake) or a proper list of strings. -/
inductive StrOrStrList where
  | str (s : String)
  | strs (xs : List String)
deriving DecidableEq, Repr

/-- Python `tuple(x)` on such a value: a string is iterated
character-by-character into one-character strings. -/
def pyTupleOfStrings : StrOrStrList → List String
  | .str s => s.data.map (fun c => String.mk [c])
  | .strs xs => xs

/-- `User.__post_init__` seen from the constructor: `organizations` is
normalised with `tuple(...)` and no string check is performed. -/
def User.ofInput (login : String) (organizations : StrOrStrList) : User :=
  { login := login, organizations := pyTupleOfStrings organizations }

/-- `AccessToken.__post_init__` seen from the constructor: a plain string
for `permissions` or `repositories` raises `TypeError` (modelled as the
error branch), otherwise both are normalised to tuples. -/
def AccessToken.ofInput (value owner : String)
    (permissions repositories : StrOrStrList)
    (repositoryVisibility : Option String) : Except String AccessToken :=
  match permissions with
  | .str _ => .error "Token permissions must be an iterable of strings"
  | .strs ps =>
    match repositories with
    | .str _ => .error "Token repositories must be an iterable of strings"
    | .strs rs =>
      .ok { value := value, owner := owner, permissions := ps,
            repositories := rs, repositoryVisibility := repositoryVisibility }

/-- Modelled from the spec: `AppInstallation.__post_init__` is absent from
the provided sources; spec §4.1 requires string-valued collection inputs to
be rejected as a type error, and the unit tests assert the exact
`TypeError` messages for `repositories` and `permissions`. -/
def AppInstallation.ofInput (installationId : Int) (appSlug account : String)
    (repositories permissions : StrOrStrList) (accessToken : Option String) :
    Except String AppInstallation :=
  match repositories with
  | .str _ => .error "Installation repositories must be an iterable of strings"
  | .strs rs =>
    match permissions with
    | .str _ => .error "Installation permissions must be an iterable of strings"
    | .strs ps =>
      .ok { installationId := installationId, appSlug := appSlug,
            account := account, repositories := rs, permissions := ps,
            accessToken := accessToken }

theorem requireText_ok {v l w : String} (h : requireText v l = .ok w) : w = v := by
  unfold requireText at h
  split at h <;> simp_all

theorem requireText_ok_iff {v l : String} :
    (∃ w, requireText v l = .ok w) ↔ pyIsBlank v = false := by
  unfold requireText
  split <;> simp_all

theorem requirePositiveInt_ok {v : Int} {l : String} {w : Int}
    (h : requirePositiveInt v l = .ok w) : w = v := by
  unfold requirePositiveInt at h
  split at h <;> simp_all

theorem alookup_eq_none {α β : Type} [DecidableEq α] {l : List (α × β)} {k : α} :
    alookup l k = none ↔ k ∉ l.map Prod.fst := by
  induction l with
  | nil => simp [alookup]
  | cons p t ih =>
    obtain ⟨a, b⟩ := p
    by_cases hak : a = k
    · subst hak
      simp [alookup]
    · simp [alookup, hak, ih, Ne.symm hak]

theorem alookup_mem {α β : Type} [DecidableEq α] {l : List (α × β)} {k : α} {v : β}
    (h : alookup l k = some v) : (k, v) ∈ l := by
  induction l with
  | nil => simp [alookup] at h
  | cons p t ih =>
    obtain ⟨a, b⟩ := p
    by_cases hak : a = k
    · subst hak
      simp [alookup] at h
      simp [h]
    · simp [alookup, hak] at h
      simp [ih h]

theorem alookup_of_mem_nodup {α β : Type} [DecidableEq α] {l : List (α × β)}
    {k : α} {v : β} (hnd : (l.map Prod.fst).Nodup) (hmem : (k, v) ∈ l) :
    alookup l k = some v := by
  induction l with
  | nil => simp at hmem
  | cons p t ih =>
    obtain ⟨a, b⟩ := p
    simp at hnd
    rcases List.mem_cons.mp hmem with h | h
    · cases h
      simp [alookup]
    · have hak : a ≠ k := by
        rintro rfl
        exact hnd.1 v h
      simp [alookup, hak, ih hnd.2 h]

theorem alookup_append {α β : Type} [DecidableEq α] (l₁ l₂ : List (α × β)) (k : α) :
    alookup (l₁ ++ l₂) k =
      match alookup l₁ k with
      | some v => some v
      | none => alookup l₂ k := by
  induction l₁ with
  | nil => simp [alookup]
  | cons p t ih =>
    obtain ⟨a, b⟩ := p
    by_cases hak : a = k <;> simp [alookup, hak, ih]

theorem alookup_upsert {α β : Type} [DecidableEq α] (l : List (α × β)) (k : α)
    (v : β) (a : α) :
    alookup (upsert l k v) a = if k = a then some v else alookup l a := by
  induction l with
  | nil => simp [upsert, alookup]
  | cons p t ih =>
    obtain ⟨b, w⟩ := p
    by_cases hbk : b = k
    · subst hbk
      by_cases hba : b = a <;> simp [upsert, alookup, hba]
    · by_cases hba : b = a
      · subst hba
        have : ¬ k = b := fun h => hbk h.symm
        simp [upsert, alookup, hbk, this]
      · simp [upsert, alookup, hbk, hba, ih]

theorem upsert_mem {α β : Type} [DecidableEq α] {l : List (α × β)} {k : α} {v : β}
    {p : α × β} (h : p ∈ upsert l k v) : p = (k, v) ∨ p ∈ l := by
  induction l with
  | nil => simpa [upsert] using h
  | cons q t ih =>
    obtain ⟨b, w⟩ := q
    by_cases hbk : b = k
    · subst hbk
      simp [upsert] at h
      rcases h with h | h
      · exact .inl h
      · exact .inr (by simp [h])
    · simp [upsert, hbk] at h
      rcases h with h | h
      · exact .inr (by simp [h])
      · rcases ih h with h' | h'
        · exact .inl h'
        · exact .inr (by simp [h'])

theorem upsert_map_fst {α β : Type} [DecidableEq α] (l : List (α × β)) (k : α) (v : β) :
    (upsert l k v).map Prod.fst =
      if k ∈ l.map Prod.fst then l.map Prod.fst else l.map Prod.fst ++ [k] := by
  induction l with
  | nil => simp [upsert]
  | cons p t ih =>
    obtain ⟨b, w⟩ := p
    by_cases hbk : b = k
    · subst hbk
      simp [upsert]
    · have : ¬ k = b := fun h => hbk h.symm
      by_cases hkt : k ∈ t.map Prod.fst <;> simp [upsert, hbk, this, ih, hkt]

theorem upsert_map_fst_nodup {α β : Type} [DecidableEq α] {l : List (α × β)}
    (hnd : (l.map Prod.fst).Nodup) (k : α) (v : β) :
    ((upsert l k v).map Prod.fst).Nodup := by
  rw [upsert_map_fst]
  by_cases hk : k ∈ l.map Prod.fst
  · simpa [hk] using hnd
  · rw [if_neg hk, List.nodup_append]
    refine ⟨hnd, List.nodup_singleton _, ?_⟩
    intro a ha hak
    simp at hak
    subst hak
    exact hk ha

theorem ensureUniqueAux_ok {label : String} :
    ∀ {xs seen r : List String}, ensureUniqueAux label xs seen = .ok r →
      r = seen ++ xs ∧ (seen.Nodup → r.Nodup) := by
  intro xs
  induction xs with
  | nil => intro seen r h; simp [ensureUniqueAux] at h; simp [h]
  | cons v rest ih =>
    intro seen r h
    unfold ensureUniqueAux at h
    split at h
    · cases h
    · obtain ⟨hr, hnd⟩ := ih h
      constructor
      · simp [hr]
      · intro hseen
        refine hnd ?_
        simp [List.nodup_append, hseen]
        intro hv
        simp_all

theorem ensureUnique_ok {xs : List String} {label : String} {r : List String}
    (h : ensureUnique xs label = .ok r) : r = xs ∧ xs.Nodup := by
  obtain ⟨hr, hnd⟩ := ensureUniqueAux_ok h
  simp at hr
  exact ⟨hr, by simpa [hr] using hnd List.nodup_nil⟩

theorem mapExcept_ok_eq {α β : Type} {f : α → Except String β} {g : α → β}
    (hf : ∀ a b, f a = .ok b → b = g a) :
    ∀ {xs : List α} {ys : List β}, mapExcept f xs = .ok ys → ys = xs.map g := by
  intro xs
  induction xs with
  | nil => intro ys h; simp [mapExcept] at h; simp [h]
  | cons a as ih =>
    intro ys h
    unfold mapExcept at h
    split at h
    · cases h
    · split at h
      · cases h
      · cases h
        simp_all [hf a _ (by assumption)]

/-- C1 counterexample: the claim demands that a default that is a member of
a non-empty pool is returned, but `_select_auth_token_value` first passes
the default through `_require_text`, so the blank default `""`, although a
member of `[""]`, raises instead of being returned. -/
theorem credential_resolution_law_cex :
    ("" ∈ [""]) ∧
      selectAuthTokenValue [""] (some "") =
        .error "Default token must be a non-empty string" :=
  ⟨by simp, by rfl⟩

/-- C1 (amended): resolution over every pool `T` and optional default `D` —
empty pool and no default yields `none`; empty pool with a default raises;
a non-empty pool with a *non-blank* default returns it exactly when it is a
member and raises otherwise, while a blank default always raises the
non-empty-string error even when it is a member; a singleton pool without a
default returns its sole member; two or more members without a default
raise. -/
theorem credential_resolution_law (T : List String) (D : Option String) :
    (T = [] → D = none → selectAuthTokenValue T D = .ok none)
    ∧ (T = [] → ∀ d, D = some d →
        selectAuthTokenValue T D =
          .error "Default token must match one of the configured tokens")
    ∧ (T ≠ [] → ∀ d, D = some d → pyIsBlank d = false → d ∈ T →
        selectAuthTokenValue T D = .ok (some d))
    ∧ (T ≠ [] → ∀ d, D = some d → pyIsBlank d = true →
        selectAuthTokenValue T D = .error "Default token must be a non-empty string")
    ∧ (T ≠ [] → ∀ d, D = some d → pyIsBlank d = false → d ∉ T →
        selectAuthTokenValue T D =
          .error "Default token must match one of the configured tokens")
    ∧ (∀ v, T = [v] → D = none → selectAuthTokenValue T D = .ok (some v))
    ∧ (2 ≤ T.length → D = none →
        selectAuthTokenValue T D =
          .error "Multiple tokens configured but no default_token set") := by
  refine ⟨?_, ?_, ?_, ?_, ?_, ?_, ?_⟩
  · rintro rfl rfl
    rfl
  · rintro rfl d rfl
    rfl
  · rintro hT d rfl hd hmem
    cases T with
    | nil => exact absurd rfl hT
    | cons v rest =>
      simp [selectAuthTokenValue, requireText, hd, hmem]
  · rintro hT d rfl hd
    cases T with
    | nil => exact absurd rfl hT
    | cons v rest =>
      simp [selectAuthTokenValue, requireText, hd]
  · rintro hT d rfl hd hmem
    cases T with
    | nil => exact absurd rfl hT
    | cons v rest =>
      simp [selectAuthTokenValue, requireText, hd, hmem]
  · rintro v rfl rfl
    rfl
  · rintro hlen rfl
    cases T with
    | nil => simp at hlen
    | cons v rest =>
      cases rest with
      | nil => simp at hlen
      | cons w rs => rfl

/-- C1 witness: a two-member pool with a matching non-blank default
resolves to that default. -/
theorem credential_resolution_law_witness :
    selectAuthTokenValue ["a", "b"] (some "b") = .ok (some "b") :=
  (credential_resolution_law ["a", "b"] (some "b")).2.2.1 (by simp) "b" rfl
    (by decide) (by decide)

/-- C9: `stop_sim_process` returns without raising for every process
behaviour — terminate's `OSError` is caught, the graceful wait's timeout
escalates to the kill path, and the kill signal and kill wait are run under
`suppress` — and it is a no-op (issues no signal or wait) on an
already-exited handle, so calling it twice on such a handle raises neither
time. -/
theorem stop_never_raises (b : ProcBehavior) :
    (stopSimProcess b).2 = .ok ()
    ∧ (b.alreadyExited = true → (stopSimProcess b).1 = []) := by
  obtain ⟨e, t, g, k, w⟩ := b
  cases e <;> cases t <;> cases g <;> cases k <;> cases w <;>
    simp [stopSimProcess, pySignal, pyWait, pySuppress]

/-- C9 witness: an already-exited handle — the stop call succeeds and
performs no action, both on the first and on a repeated call. -/
theorem stop_never_raises_witness :
    (stopSimProcess ⟨true, false, .completed, false, .completed⟩).2 = .ok ()
    ∧ (stopSimProcess ⟨true, false, .completed, false, .completed⟩).1 = [] :=
  ⟨(stop_never_raises ⟨true, false, .completed, false, .completed⟩).1,
    (stop_never_raises ⟨true, false, .completed, false, .completed⟩).2 rfl⟩

theorem alookup_foldl_upsert (config : List (String × Json))
    (init : List (String × Json)) (k : String)
    (hnd : (config.map Prod.fst).Nodup) :
    alookup (config.foldl (fun acc kv => upsert acc kv.1 kv.2) init) k =
      match alookup config k with
      | some v => some v
      | none => alookup init k := by
  induction config generalizing init with
  | nil => simp [alookup]
  | cons p rest ih =>
    obtain ⟨a, b⟩ := p
    simp at hnd
    by_cases hak : a = k
    · subst hak
      have hrest : alookup rest a = none :=
        alookup_eq_none.mpr (by
          intro hmem
          obtain ⟨q, hq, he⟩ := List.mem_map.mp hmem
          exact hnd.1 q.2 (by simpa [← he] using hq))
      simp [List.foldl_cons, ih _ hnd.2, alookup, hrest, alookup_upsert]
    · have hka : ¬ k = a := fun h => hak h.symm
      simp [List.foldl_cons, ih _ hnd.2, alookup, hak, alookup_upsert, hka]

/-- C10: the configuration object written by `_write_config` always carries
the keys `users`, `organizations`, `repositories`, `branches` and `blobs`
— each bound to the caller's value when the input mapping supplies the key
and to the default empty array otherwise — every caller-supplied key
shallowly replaces its default, and the empty mapping yields exactly the
minimal five-empty-array state. -/
theorem config_file_padding (config : List (String × Json))
    (hnd : (config.map Prod.fst).Nodup) :
    (∀ k, k ∈ ["users", "organizations", "repositories", "branches", "blobs"] →
      alookup (writeConfig config) k = some ((alookup config k).getD (Json.arr [])))
    ∧ (∀ k v, (k, v) ∈ config → alookup (writeConfig config) k = some v)
    ∧ writeConfig [] = emptyInitialState := by
  refine ⟨?_, ?_, rfl⟩
  · intro k hk
    rw [writeConfig, alookup_foldl_upsert config emptyInitialState k hnd]
    cases hc : alookup config k
    · fin_cases hk <;> rfl
    · rfl
  · intro k v hmem
    rw [writeConfig, alookup_foldl_upsert config emptyInitialState k hnd,
      alookup_of_mem_nodup hnd hmem]

/-- C10 witness: a mapping that overrides `users` and adds a new key keeps
the five required keys, with the caller's value replacing the default. -/
theorem config_file_padding_witness :
    alookup (writeConfig [("users", Json.arr [Json.null]), ("extra", Json.int 1)])
        "users" = some (Json.arr [Json.null])
    ∧ alookup (writeConfig [("users", Json.arr [Json.null]), ("extra", Json.int 1)])
        "branches" = some (Json.arr []) := by
  refine ⟨?_, ?_⟩
  · exact (config_file_padding [("users", Json.arr [Json.null]), ("extra", Json.int 1)]
      (by decide)).2.1 "users" (Json.arr [Json.null]) (by simp)
  · have h := (config_file_padding [("users", Json.arr [Json.null]), ("extra", Json.int 1)]
      (by decide)).1 "branches" (by simp)
    exact h

/-- C3 counterexample: `{"event": "listening", "port": "4242"}` carries a
JSON *string*, not an integer, as its port, yet `int(evt["port"])`
converts it, so `start` returns port 4242 instead of failing. -/
theorem handshake_invalid_listening_cex :
    waitForPort
        [some (Json.obj [("event", Json.str "listening"), ("port", Json.str "4242")])]
      = StartResult.listening 4242 := by
  rfl

/-- C3 (amended): during start, if the earliest relevant output record is a
JSON object with `"event": "listening"` whose `"port"` value is absent or
not convertible by Python `int()` (null, array, object, or a non-numeric
string), the handshake fails immediately through `_cleanup_failed_process`
(drain output, terminate, raise a process error carrying the
invalid-listening message) rather than returning a port; when the value is
convertible (an integer, or a numeric string or boolean, which `int()`
accepts), the converted number is returned as the port. -/
theorem handshake_invalid_listening (pre rest : List (Option Json)) (evt : Json)
    (hpre : ∀ l ∈ pre, lineIgnored l = true)
    (hevt : isEventValue (objLookup evt "event") "listening" = true) :
    (pyInt (objLookup evt "port") = none →
      waitForPort (pre ++ some evt :: rest) =
        .failed (.invalidListening evt))
    ∧ (∀ p, pyInt (objLookup evt "port") = some p →
        waitForPort (pre ++ some evt :: rest) = .listening p) := by
  induction pre with
  | nil =>
    constructor
    · intro hport
      simp [waitForPort, processStdoutLine, hevt, hport]
    · intro p hport
      simp [waitForPort, processStdoutLine, hevt, hport]
  | cons l pre ih =>
    have hl : lineIgnored l = true := hpre l (by simp)
    have hrest : ∀ l ∈ pre, lineIgnored l = true := fun x hx => hpre x (by simp [hx])
    obtain ⟨ih1, ih2⟩ := ih hrest
    cases l with
    | none => exact ⟨fun hport => by simpa [waitForPort] using ih1 hport,
        fun p hport => by simpa [waitForPort] using ih2 p hport⟩
    | some e =>
      unfold lineIgnored at hl
      constructor
      · intro hport
        rw [List.cons_append]
        unfold waitForPort
        split
        · simp_all
        · simp_all
        · exact ih1 hport
      · intro p hport
        rw [List.cons_append]
        unfold waitForPort
        split
        · simp_all
        · simp_all
        · exact ih2 p hport

/-- C3 witness: a listening record with a `null` port fails the handshake
with the invalid-listening cleanup error. -/
theorem handshake_invalid_listening_witness :
    waitForPort [some (Json.obj [("event", Json.str "listening"), ("port", Json.null)])]
      = .failed (.invalidListening
          (Json.obj [("event", Json.str "listening"), ("port", Json.null)])) :=
  (handshake_invalid_listening [] []
      (Json.obj [("event", Json.str "listening"), ("port", Json.null)])
      (by simp) rfl).1 rfl

/-- C5 counterexample: a `User` constructed with the plain string `"org"`
as its `organizations` collection is accepted and the string is iterated
character-by-character into `["o", "r", "g"]` — no type error is raised at
construction, contrary to the claim. -/
theorem string_collection_cex :
    User.ofInput "alice" (.str "org")
      = { login := "alice", organizations := ["o", "r", "g"] } := by
  rfl

/-- C5 (amended): passing a single string where a collection of strings is
expected is rejected as a type error for an access token's `permissions`
and `repositories` and for an installation's `repositories` and
`permissions`; a user's `organizations`, however, is normalised with
`tuple(...)` and a string is silently iterated character-by-character. -/
theorem string_collection_rejection (s v o : String) (xs : List String)
    (vis : Option String) (i : Int) (slug acct : String) (tok : Option String) :
    AccessToken.ofInput v o (.str s) (.strs xs) vis
        = .error "Token permissions must be an iterable of strings"
    ∧ AccessToken.ofInput v o (.strs xs) (.str s) vis
        = .error "Token repositories must be an iterable of strings"
    ∧ AppInstallation.ofInput i slug acct (.str s) (.strs xs) tok
        = .error "Installation repositories must be an iterable of strings"
    ∧ AppInstallation.ofInput i slug acct (.strs xs) (.str s) tok
        = .error "Installation permissions must be an iterable of strings"
    ∧ User.ofInput v (.str s)
        = { login := v, organizations := s.data.map (fun c => String.mk [c]) } :=
  ⟨rfl, rfl, rfl, rfl, rfl⟩

/-- C8: `validate` raises a single error — the one produced by the first
violating stage in the fixed order organizations → users → repositories →
tokens → apps → app installations → default-token selection → branches →
issues → pull requests. Each stage function reads only its own collection
and the results of earlier stages, so when an earlier collection contains
a violation its error is reported and no later collection is consulted;
errors are never aggregated (`Except` carries exactly one). -/
theorem first_violation_order (s : ScenarioConfig) :
    (∀ e, validateOrganizations s.organizations = .error e →
      s.validate = .error e)
    ∧ (∀ e o, validateOrganizations s.organizations = .ok o →
        validateUsers s.users o = .error e → s.validate = .error e)
    ∧ (∀ e o u, validateOrganizations s.organizations = .ok o →
        validateUsers s.users o = .ok u →
        validateRepositories s.repositories u o = .error e → s.validate = .error e)
    ∧ (∀ e o u r, validateOrganizations s.organizations = .ok o →
        validateUsers s.users o = .ok u →
        validateRepositories s.repositories u o = .ok r →
        validateTokens s.tokens u o r = .error e → s.validate = .error e)
    ∧ (∀ e o u r, validateOrganizations s.organizations = .ok o →
        validateUsers s.users o = .ok u →
        validateRepositories s.repositories u o = .ok r →
        validateTokens s.tokens u o r = .ok () →
        validateApps s.apps u o = .error e → s.validate = .error e)
    ∧ (∀ e o u r a, validateOrganizations s.organizations = .ok o →
        validateUsers s.users o = .ok u →
        validateRepositories s.repositories u o = .ok r →
        validateTokens s.tokens u o r = .ok () →
        validateApps s.apps u o = .ok a →
        validateAppInstallations s.appInstallations a u o r s.tokens = .error e →
        s.validate = .error e)
    ∧ (∀ e o u r a, validateOrganizations s.organizations = .ok o →
        validateUsers s.users o = .ok u →
        validateRepositories s.repositories u o = .ok r →
        validateTokens s.tokens u o r = .ok () →
        validateApps s.apps u o = .ok a →
        validateAppInstallations s.appInstallations a u o r s.tokens = .ok () →
        validateDefaultToken s.tokens s.appInstallations s.defaultToken = .error e →
        s.validate = .error e)
    ∧ (∀ e o u r a, validateOrganizations s.organizations = .ok o →
        validateUsers s.users o = .ok u →
        validateRepositories s.repositories u o = .ok r →
        validateTokens s.tokens u o r = .ok () →
        validateApps s.apps u o = .ok a →
        validateAppInstallations s.appInstallations a u o r s.tokens = .ok () →
        validateDefaultToken s.tokens s.appInstallations s.defaultToken = .ok () →
        validateBranches s.branches r = .error e → s.validate = .error e)
    ∧ (∀ e o u r a b, validateOrganizations s.organizations = .ok o →
        validateUsers s.users o = .ok u →
        validateRepositories s.repositories u o = .ok r →
        validateTokens s.tokens u o r = .ok () →
        validateApps s.apps u o = .ok a →
        validateAppInstallations s.appInstallations a u o r s.tokens = .ok () →
        validateDefaultToken s.tokens s.appInstallations s.defaultToken = .ok () →
        validateBranches s.branches r = .ok b →
        validateIssues s.issues r = .error e → s.validate = .error e)
    ∧ (∀ e o u r a b, validateOrganizations s.organizations = .ok o →
        validateUsers s.users o = .ok u →
        validateRepositories s.repositories u o = .ok r →
        validateTokens s.tokens u o r = .ok () →
        validateApps s.apps u o = .ok a →
        validateAppInstallations s.appInstallations a u o r s.tokens = .ok () →
        validateDefaultToken s.tokens s.appInstallations s.defaultToken = .ok () →
        validateBranches s.branches r = .ok b →
        validateIssues s.issues r = .ok () →
        validatePullRequests s.pullRequests r b = .error e →
        s.validate = .error e) := by
  refine ⟨?_, ?_, ?_, ?_, ?_, ?_, ?_, ?_, ?_, ?_⟩
  · intro e ho
    simp [ScenarioConfig.validate, buildIndexes, ho]
  · intro e o ho hu
    simp [ScenarioConfig.validate, buildIndexes, ho, hu]
  · intro e o u ho hu hr
    simp [ScenarioConfig.validate, buildIndexes, ho, hu, hr]
  · intro e o u r ho hu hr ht
    simp [ScenarioConfig.validate, buildIndexes, ho, hu, hr, ht]
  · intro e o u r ho hu hr ht ha
    simp [ScenarioConfig.validate, buildIndexes, ho, hu, hr, ht, ha]
  · intro e o u r a ho hu hr ht ha hi
    simp [ScenarioConfig.validate, buildIndexes, ho, hu, hr, ht, ha, hi]
  · intro e o u r a ho hu hr ht ha hi hd
    simp [ScenarioConfig.validate, buildIndexes, ho, hu, hr, ht, ha, hi, hd]
  · intro e o u r a ho hu hr ht ha hi hd hb
    simp [ScenarioConfig.validate, buildIndexes, ho, hu, hr, ht, ha, hi, hd, hb]
  · intro e o u r a b ho hu hr ht ha hi hd hb his
    simp [ScenarioConfig.validate, buildIndexes, ho, hu, hr, ht, ha, hi, hd, hb, his]
  · intro e o u r a b ho hu hr ht ha hi hd hb his hp
    simp [ScenarioConfig.validate, buildIndexes, ho, hu, hr, ht, ha, hi, hd, hb, his, hp]

/-- C8 witness: with both a duplicated organization login and a blank user
login present, the reported error is the organizations-stage duplicate. -/
theorem first_violation_order_witness :
    ScenarioConfig.validate
        { organizations := [{ login := "x" }, { login := "x" }],
          users := [{ login := "" }] }
      = .error "Duplicate organization login: \x27x\x27" :=
  (first_violation_order
      { organizations := [{ login := "x" }, { login := "x" }],
        users := [{ login := "" }] }).1
    "Duplicate organization login: \x27x\x27" (by rfl)


/-- The serialized payload shape of `to_simulator_config`, as a function of
the collections it reads and the merged branch index. -/
def serializeParts (users : List User) (organizations : List Organization)
    (repositories : List Repository) (issues : List Issue)
    (pullRequests : List PullRequest) (branchIndex : BranchIndex)
    (includeUnsupported : Bool) : List (String × Json) :=
  [("users", .arr (users.map (fun u => .obj u.toDict))),
   ("organizations", .arr (organizations.map (fun o => .obj o.toDict))),
   ("repositories", .arr (repositories.map (fun r => .obj r.toDict))),
   ("branches", .arr ((flattenBranchIndex branchIndex).map (fun b => .obj b.toDict))),
   ("blobs", .arr [])]
    ++ (if includeUnsupported then
          [("issues", .arr (issues.map (fun i => .obj i.toDict))),
           ("pull_requests", .arr (pullRequests.map (fun pr => .obj pr.toDict)))]
        else [])

theorem toSimulatorConfig_ok_eq {s : ScenarioConfig} {flag : Bool}
    {c : List (String × Json)} (h : toSimulatorConfig s flag = .ok c) :
    ∃ ix, buildIndexes s = .ok ix ∧
      c = serializeParts s.users s.organizations s.repositories s.issues
            s.pullRequests ix.branchIndex flag := by
  unfold toSimulatorConfig at h
  cases hb : buildIndexes s with
  | error e => simp [hb] at h
  | ok ix =>
    refine ⟨ix, rfl, ?_⟩
    simp only [hb] at h
    cases flag with
    | false =>
      simp only [Bool.false_eq_true, if_false] at h
      cases h
      simp [serializeParts]
    | true =>
      simp only [if_true] at h
      cases his : validateIssues s.issues ix.repoIndex with
      | error e => simp [his] at h
      | ok _ =>
        simp only [his] at h
        cases hp : validatePullRequests s.pullRequests ix.repoIndex ix.branchIndex with
        | error e => simp [hp] at h
        | ok _ =>
          simp only [hp] at h
          cases h
          simp [serializeParts]

theorem buildIndexes_stable_parts {s t : ScenarioConfig}
    {ix ix' : ScenarioIndexes}
    (h : buildIndexes s = .ok ix) (h' : buildIndexes t = .ok ix')
    (hus : t.users = s.users) (hor : t.organizations = s.organizations)
    (hre : t.repositories = s.repositories) (hbr : t.branches = s.branches) :
    ix'.branchIndex = ix.branchIndex ∧ ix'.repoIndex = ix.repoIndex := by
  unfold buildIndexes at h h'
  rw [hus, hor, hre, hbr] at h'
  cases ho : validateOrganizations s.organizations with
  | error e => simp [ho] at h
  | ok o =>
    simp only [ho] at h h'
    cases hu : validateUsers s.users o with
    | error e => simp [hu] at h
    | ok u =>
      simp only [hu] at h h'
      cases hr : validateRepositories s.repositories u o with
      | error e => simp [hr] at h
      | ok r =>
        simp only [hr] at h h'
        cases ht : validateTokens s.tokens u o r with
        | error e => simp [ht] at h
        | ok tv =>
          simp only [ht] at h
          cases ht' : validateTokens t.tokens u o r with
          | error e => simp [ht'] at h'
          | ok tv' =>
            simp only [ht'] at h'
            cases ha : validateApps s.apps u o with
            | error e => simp [ha] at h
            | ok a =>
              simp only [ha] at h
              cases ha' : validateApps t.apps u o with
              | error e => simp [ha'] at h'
              | ok a' =>
                simp only [ha'] at h'
                cases hi : validateAppInstallations s.appInstallations a u o r s.tokens with
                | error e => simp [hi] at h
                | ok iv =>
                  simp only [hi] at h
                  cases hi' : validateAppInstallations t.appInstallations a' u o r t.tokens with
                  | error e => simp [hi'] at h'
                  | ok iv' =>
                    simp only [hi'] at h'
                    cases hd : validateDefaultToken s.tokens s.appInstallations s.defaultToken with
                    | error e => simp [hd] at h
                    | ok dv =>
                      simp only [hd] at h
                      cases hd' : validateDefaultToken t.tokens t.appInstallations t.defaultToken with
                      | error e => simp [hd'] at h'
                      | ok dv' =>
                        simp only [hd'] at h'
                        cases hb : validateBranches s.branches r with
                        | error e => simp [hb] at h
                        | ok b =>
                          simp only [hb] at h h'
                          cases h
                          cases h'
                          exact ⟨rfl, rfl⟩

/-- C7: for every scenario (in particular one containing tokens, apps and
installations) and either value of `include_unsupported`, the serialized
output's top-level keys are exactly `users`, `organizations`,
`repositories`, `branches`, `blobs`, plus `issues` and `pull_requests`
only when `include_unsupported` is true; and no key or value of the output
is derived from tokens (including their repository-visibility scoping),
apps, installations, or the default-token selection — replacing all of
those collections leaves a successful serialization unchanged. -/
theorem serialization_exclusion :
    (∀ (s : ScenarioConfig) (flag : Bool) (c : List (String × Json)),
      toSimulatorConfig s flag = .ok c →
        c.map Prod.fst =
          ["users", "organizations", "repositories", "branches", "blobs"]
            ++ (if flag then ["issues", "pull_requests"] else []))
    ∧ (∀ (s : ScenarioConfig) (flag : Bool) (tokens' : List AccessToken)
        (apps' : List GitHubApp) (insts' : List AppInstallation)
        (dflt' : Option String) (c c' : List (String × Json)),
        toSimulatorConfig s flag = .ok c →
        toSimulatorConfig
          { s with tokens := tokens', apps := apps',
                   appInstallations := insts', defaultToken := dflt' } flag = .ok c' →
        c = c') := by
  constructor
  · intro s flag c h
    obtain ⟨ix, _, rfl⟩ := toSimulatorConfig_ok_eq h
    cases flag <;> simp [serializeParts]
  · intro s flag tokens' apps' insts' dflt' c c' h h'
    obtain ⟨ix, hb, rfl⟩ := toSimulatorConfig_ok_eq h
    obtain ⟨ix', hb', rfl⟩ := toSimulatorConfig_ok_eq h'
    obtain ⟨hbi, -⟩ := buildIndexes_stable_parts hb hb' rfl rfl rfl rfl
    rw [hbi]

/-- C7 witness: a scenario holding a token, an app and an installation
serializes (with `include_unsupported=False`) to exactly the five
credential-free keys. -/
theorem serialization_exclusion_witness :
    ([("users", Json.arr [Json.obj [("login", Json.str "alice"),
        ("organizations", Json.arr [])]]),
      ("organizations", Json.arr []), ("repositories", Json.arr []),
      ("branches", Json.arr []), ("blobs", Json.arr [])]
        : List (String × Json)).map Prod.fst =
      ["users", "organizations", "repositories", "branches", "blobs"]
        ++ (if false then ["issues", "pull_requests"] else []) :=
  serialization_exclusion.1
    { users := [{ login := "alice" }],
      tokens := [{ value := "t", owner := "alice" }],
      apps := [{ appSlug := "bot", name := "Bot" }],
      appInstallations := [{ installationId := 1, appSlug := "bot", account := "alice" }] }
    false _ (by rfl)

/-- The C6 merge scenario: repository `alice/demo` with default branch
`{name: "main", sha: "abc"}` and explicit branch `{name: "main",
protected: true}`. -/
def defaultBranchMergeScenario : ScenarioConfig :=
  { users := [{ login := "alice" }],
    repositories :=
      [{ owner := "alice", name := "demo",
         defaultBranch := some { name := "main", sha := some "abc" } }],
    branches :=
      [{ owner := "alice", repository := "demo", name := "main",
         isProtected := some true }] }

/-- The C6 conflict family: default branch `{name: "main", sha: s1}` and an
explicit branch of the same repository and name carrying `sha: s2` and an
arbitrary protection flag. -/
def shaConflictScenario (s1 s2 : String) (p : Option Bool) : ScenarioConfig :=
  { users := [{ login := "alice" }],
    repositories :=
      [{ owner := "alice", name := "demo",
         defaultBranch := some { name := "main", sha := some s1 } }],
    branches :=
      [{ owner := "alice", repository := "demo", name := "main",
         sha := some s2, isProtected := p }] }

/-- C6: merging the default-branch descriptor `{main, sha abc}` with the
explicit branch `{main, protected true}` yields the branch-index entry
`{sha abc, protected true}`; and whenever the descriptor's and the
explicit branch's shas differ, `validate` raises. -/
theorem default_branch_merge_determinism :
    ((buildIndexes defaultBranchMergeScenario).map
        (fun ix => alookup ((alookup ix.branchIndex ("alice", "demo")).getD []) "main") =
      .ok (some { owner := "alice", repository := "demo", name := "main",
                  sha := some "abc", isProtected := some true }))
    ∧ ∀ (s1 s2 : String) (p : Option Bool), s1 ≠ s2 →
        ∃ e, (shaConflictScenario s1 s2 p).validate = .error e := by
  constructor
  · rfl
  · intro s1 s2 p hne
    by_cases h1 : pyIsBlank s1 = true
    · simp +decide [ScenarioConfig.validate, buildIndexes, shaConflictScenario,
        validateOrganizations, validateUsers, validateUserOrgs,
        validateRepositories, validateRepositoryStep, validateTokens,
        validateApps, validateAppInstallations, validateDefaultToken,
        selectAuthTokenValue, collectAllTokenValues, validateBranches,
        validateExplicitBranches, validateExplicitBranchStep, validateBranchCore,
        validateBranchOverlap, mergeDefaultBranch, attachDefaultBranches,
        shaConflict, protectedConflict, shaOr, DefaultBranch.toBranch,
        validateIssues, validatePullRequests, requireText, ensureUnique,
        ensureUniqueAux, mapExcept, foldExcept, forExcept, alookup, upsert,
        pyQuote, h1]
    · have h1f : pyIsBlank s1 = false := by simpa using h1
      have hs1 : s1 ≠ "" := by
        rintro rfl
        simp [pyIsBlank] at h1f
      by_cases h2 : pyIsBlank s2 = true
      · simp +decide [ScenarioConfig.validate, buildIndexes, shaConflictScenario,
          validateOrganizations, validateUsers, validateUserOrgs,
          validateRepositories, validateRepositoryStep, validateTokens,
          validateApps, validateAppInstallations, validateDefaultToken,
          selectAuthTokenValue, collectAllTokenValues, validateBranches,
          validateExplicitBranches, validateExplicitBranchStep, validateBranchCore,
          validateBranchOverlap, mergeDefaultBranch, attachDefaultBranches,
          shaConflict, protectedConflict, shaOr, DefaultBranch.toBranch,
          validateIssues, validatePullRequests, requireText, ensureUnique,
          ensureUniqueAux, mapExcept, foldExcept, forExcept, alookup, upsert,
          pyQuote, h1f, h2]
      · have h2f : pyIsBlank s2 = false := by simpa using h2
        have hs2 : s2 ≠ "" := by
          rintro rfl
          simp [pyIsBlank] at h2f
        have hne' : s2 ≠ s1 := Ne.symm hne
        simp +decide [ScenarioConfig.validate, buildIndexes, shaConflictScenario,
          validateOrganizations, validateUsers, validateUserOrgs,
          validateRepositories, validateRepositoryStep, validateTokens,
          validateApps, validateAppInstallations, validateDefaultToken,
          selectAuthTokenValue, collectAllTokenValues, validateBranches,
          validateExplicitBranches, validateExplicitBranchStep, validateBranchCore,
          validateBranchOverlap, mergeDefaultBranch, attachDefaultBranches,
          shaConflict, protectedConflict, shaOr, DefaultBranch.toBranch,
          validateIssues, validatePullRequests, requireText, ensureUnique,
          ensureUniqueAux, mapExcept, foldExcept, forExcept, alookup, upsert,
          pyQuote, h1f, h2f, hs1, hs2, hne']

/-- C6 witness: the conflicting shas `"abc"` vs `"def"` make `validate`
raise. -/
theorem default_branch_merge_determinism_witness :
    ∃ e, (shaConflictScenario "abc" "def" (some true)).validate = .error e :=
  default_branch_merge_determinism.2 "abc" "def" (some true) (by decide)

theorem foldMergeStep_fresh {T Key : Type} [DecidableEq Key] [DecidableEq T]
    (label : String) (key : T → Key) (formatKey : Key → String) :
    ∀ (xs : List T) (acc : List (Key × T)),
      (∀ x ∈ xs, alookup acc (key x) = none) → (xs.map key).Nodup →
      foldExcept (mergeEntryStep label key formatKey) acc xs =
        .ok (acc ++ xs.map (fun x => (key x, x))) := by
  intro xs
  induction xs with
  | nil => intro acc _ _; simp [foldExcept]
  | cons x rest ih =>
    intro acc hfresh hnd
    simp at hnd
    have hx : alookup acc (key x) = none := hfresh x (by simp)
    have hstep : mergeEntryStep label key formatKey acc x = .ok (acc ++ [(key x, x)]) := by
      simp [mergeEntryStep, hx]
    have hrest : ∀ y ∈ rest, alookup (acc ++ [(key x, x)]) (key y) = none := by
      intro y hy
      rw [alookup_append, hfresh y (by simp [hy])]
      have : key x ≠ key y := fun h => hnd.1 y hy h.symm
      simp [alookup, this]
    simp only [foldExcept, hstep]
    rw [ih _ hrest hnd.2]
    simp

theorem alookup_map_self {T Key : Type} [DecidableEq Key] (key : T → Key) :
    ∀ (xs : List T), (xs.map key).Nodup →
      ∀ x ∈ xs, alookup (xs.map (fun y => (key y, y))) (key x) = some x := by
  intro xs
  induction xs with
  | nil => simp
  | cons z rest ih =>
    intro hnd x hx
    simp at hnd
    rcases List.mem_cons.mp hx with h | h
    · subst h
      simp [alookup]
    · have hne : key z ≠ key x := fun he => hnd.1 x h he.symm
      simp only [List.map_cons]
      rw [alookup, if_neg hne]
      exact ih hnd.2 x h

theorem foldMergeStep_self {T Key : Type} [DecidableEq Key] [DecidableEq T]
    (label : String) (key : T → Key) (formatKey : Key → String) :
    ∀ (xs : List T) (full : List (Key × T)),
      (∀ x ∈ xs, alookup full (key x) = some x) →
      foldExcept (mergeEntryStep label key formatKey) full xs = .ok full := by
  intro xs
  induction xs with
  | nil => intro full _; simp [foldExcept]
  | cons x rest ih =>
    intro full hself
    have hstep : mergeEntryStep label key formatKey full x = .ok full := by
      simp [mergeEntryStep, hself x (by simp)]
    simp only [foldExcept, hstep]
    exact ih _ (fun y hy => hself y (by simp [hy]))

theorem mergeEntries_single {T Key : Type} [DecidableEq Key] [DecidableEq T]
    (S : ScenarioConfig) (label : String) (key : T → Key)
    (formatKey : Key → String) (getter : ScenarioConfig → List T)
    (hnd : ((getter S).map key).Nodup) :
    mergeEntries [S] label key formatKey getter = .ok (getter S) := by
  unfold mergeEntries
  simp only [foldExcept]
  rw [foldMergeStep_fresh label key formatKey (getter S) [] (by simp [alookup]) hnd]
  simp only [List.nil_append, List.map_map]
  exact congrArg Except.ok (List.map_id (getter S))

theorem mergeEntries_double {T Key : Type} [DecidableEq Key] [DecidableEq T]
    (S : ScenarioConfig) (label : String) (key : T → Key)
    (formatKey : Key → String) (getter : ScenarioConfig → List T)
    (hnd : ((getter S).map key).Nodup) :
    mergeEntries [S, S] label key formatKey getter = .ok (getter S) := by
  unfold mergeEntries
  simp only [foldExcept]
  rw [foldMergeStep_fresh label key formatKey (getter S) [] (by simp [alookup]) hnd]
  simp only [List.nil_append]
  rw [foldMergeStep_self label key formatKey (getter S) _
    (alookup_map_self key (getter S) hnd)]
  simp only [List.map_map]
  exact congrArg Except.ok (List.map_id (getter S))

/-- C2 counterexample: a validated scenario with a standalone token —
`merge_scenarios` does not carry `tokens` (or `default_token`) over, so
merging the single scenario does not return it unchanged. -/
theorem composer_idempotence_cex :
    ScenarioConfig.validate
        { users := [{ login := "alice" }],
          tokens := [{ value := "tok", owner := "alice" }] } = .ok ()
    ∧ mergeScenarios
        [{ users := [{ login := "alice" }],
           tokens := [{ value := "tok", owner := "alice" }] }]
      ≠ .ok { users := [{ login := "alice" }],
              tokens := [{ value := "tok", owner := "alice" }] } := by
  constructor
  · rfl
  · intro h
    rw [show mergeScenarios
        [{ users := [{ login := "alice" }],
           tokens := [{ value := "tok", owner := "alice" }] }]
      = Except.ok ({ users := [{ login := "alice" }] } : ScenarioConfig) from rfl] at h
    simp at h

/-- C2 (amended): for every scenario whose eight merged collections have
pairwise-distinct identity keys (validation guarantees this for every
collection except branches, where compatible duplicates are allowed),
`merge_scenarios(S)` returns `S` with `tokens` emptied and `default_token`
cleared — in particular it equals `S` exactly when `S` carries no tokens
and no default-token selection — and merging `S` with itself collapses the
duplicates: `merge_scenarios(S, S) = merge_scenarios(S)`. -/
theorem composer_idempotence (S : ScenarioConfig)
    (h1 : (S.users.map (fun u => u.login)).Nodup)
    (h2 : (S.organizations.map (fun o => o.login)).Nodup)
    (h3 : (S.repositories.map (fun r => (r.owner, r.name))).Nodup)
    (h4 : (S.branches.map (fun b => (b.owner, b.repository, b.name))).Nodup)
    (h5 : (S.issues.map (fun i => (i.owner, i.repository, i.number))).Nodup)
    (h6 : (S.pullRequests.map (fun pr => (pr.owner, pr.repository, pr.number))).Nodup)
    (h7 : (S.apps.map (fun a => a.appSlug)).Nodup)
    (h8 : (S.appInstallations.map (fun inst => inst.installationId)).Nodup) :
    mergeScenarios [S] = .ok { S with tokens := [], defaultToken := none }
    ∧ mergeScenarios [S, S] = mergeScenarios [S] := by
  have m1 := mergeEntries_single S "user" (fun u => u.login) id (fun s => s.users) h1
  have m2 := mergeEntries_single S "organization" (fun o => o.login) id
    (fun s => s.organizations) h2
  have m3 := mergeEntries_single S "repository" (fun r => (r.owner, r.name))
    (fun k => k.1 ++ "/" ++ k.2) (fun s => s.repositories) h3
  have m4 := mergeEntries_single S "branch" (fun b => (b.owner, b.repository, b.name))
    (fun k => k.1 ++ "/" ++ k.2.1 ++ ":" ++ k.2.2) (fun s => s.branches) h4
  have m5 := mergeEntries_single S "issue" (fun i => (i.owner, i.repository, i.number))
    (fun k => k.1 ++ "/" ++ k.2.1 ++ "#" ++ pyStrInt k.2.2) (fun s => s.issues) h5
  have m6 := mergeEntries_single S "pull request"
    (fun pr => (pr.owner, pr.repository, pr.number))
    (fun k => k.1 ++ "/" ++ k.2.1 ++ "#" ++ pyStrInt k.2.2) (fun s => s.pullRequests) h6
  have m7 := mergeEntries_single S "app" (fun a => a.appSlug) id (fun s => s.apps) h7
  have m8 := mergeEntries_single S "app installation" (fun inst => inst.installationId)
    pyStrInt (fun s => s.appInstallations) h8
  have d1 := mergeEntries_double S "user" (fun u => u.login) id (fun s => s.users) h1
  have d2 := mergeEntries_double S "organization" (fun o => o.login) id
    (fun s => s.organizations) h2
  have d3 := mergeEntries_double S "repository" (fun r => (r.owner, r.name))
    (fun k => k.1 ++ "/" ++ k.2) (fun s => s.repositories) h3
  have d4 := mergeEntries_double S "branch" (fun b => (b.owner, b.repository, b.name))
    (fun k => k.1 ++ "/" ++ k.2.1 ++ ":" ++ k.2.2) (fun s => s.branches) h4
  have d5 := mergeEntries_double S "issue" (fun i => (i.owner, i.repository, i.number))
    (fun k => k.1 ++ "/" ++ k.2.1 ++ "#" ++ pyStrInt k.2.2) (fun s => s.issues) h5
  have d6 := mergeEntries_double S "pull request"
    (fun pr => (pr.owner, pr.repository, pr.number))
    (fun k => k.1 ++ "/" ++ k.2.1 ++ "#" ++ pyStrInt k.2.2) (fun s => s.pullRequests) h6
  have d7 := mergeEntries_double S "app" (fun a => a.appSlug) id (fun s => s.apps) h7
  have d8 := mergeEntries_double S "app installation" (fun inst => inst.installationId)
    pyStrInt (fun s => s.appInstallations) h8
  constructor
  · simp only [mergeScenarios, m1, m2, m3, m4, m5, m6, m7, m8]
  · simp only [mergeScenarios, m1, m2, m3, m4, m5, m6, m7, m8,
      d1, d2, d3, d4, d5, d6, d7, d8]

/-- C2 witness: a scenario with one entry in every collection, a token and
an explicit default — the merge drops the token and the default and keeps
everything else; merging it with itself gives the same result. -/
theorem composer_idempotence_witness :
    mergeScenarios
        [{ users := [{ login := "alice" }],
           organizations := [{ login := "org" }],
           repositories := [{ owner := "alice", name := "demo" }],
           branches := [{ owner := "alice", repository := "demo", name := "main" }],
           issues := [{ owner := "alice", repository := "demo", number := 1, title := "t" }],
           pullRequests := [{ owner := "alice", repository := "demo", number := 2, title := "t" }],
           tokens := [{ value := "tok", owner := "alice" }],
           apps := [{ appSlug := "bot", name := "Bot" }],
           appInstallations := [{ installationId := 3, appSlug := "bot", account := "alice" }],
           defaultToken := some "tok" }]
      = .ok { users := [{ login := "alice" }],
              organizations := [{ login := "org" }],
              repositories := [{ owner := "alice", name := "demo" }],
              branches := [{ owner := "alice", repository := "demo", name := "main" }],
              issues := [{ owner := "alice", repository := "demo", number := 1, title := "t" }],
              pullRequests := [{ owner := "alice", repository := "demo", number := 2, title := "t" }],
              tokens := [],
              apps := [{ appSlug := "bot", name := "Bot" }],
              appInstallations := [{ installationId := 3, appSlug := "bot", account := "alice" }],
              defaultToken := none } :=
  (composer_idempotence
      { users := [{ login := "alice" }],
        organizations := [{ login := "org" }],
        repositories := [{ owner := "alice", name := "demo" }],
        branches := [{ owner := "alice", repository := "demo", name := "main" }],
        issues := [{ owner := "alice", repository := "demo", number := 1, title := "t" }],
        pullRequests := [{ owner := "alice", repository := "demo", number := 2, title := "t" }],
        tokens := [{ value := "tok", owner := "alice" }],
        apps := [{ appSlug := "bot", name := "Bot" }],
        appInstallations := [{ installationId := 3, appSlug := "bot", account := "alice" }],
        defaultToken := some "tok" }
      (by decide) (by decide) (by decide) (by decide) (by decide) (by decide)
      (by decide) (by decide)).1

theorem validateOrganizations_ok {orgs : List Organization} {o : List String}
    (h : validateOrganizations orgs = .ok o) :
    o = orgs.map (fun org => org.login) ∧ (orgs.map (fun org => org.login)).Nodup := by
  unfold validateOrganizations at h
  split at h
  · simp at h
  · rename_i logins hmap
    have hl : logins = orgs.map (fun org => org.login) :=
      mapExcept_ok_eq (fun a b hb => requireText_ok hb) hmap
    obtain ⟨hr, hnd⟩ := ensureUnique_ok h
    subst hl
    exact ⟨hr, hnd⟩

theorem validateUsers_ok {users : List User} {ol : List String} {u : List String}
    (h : validateUsers users ol = .ok u) :
    u = users.map (fun x => x.login) ∧ (users.map (fun x => x.login)).Nodup := by
  unfold validateUsers at h
  split at h
  · simp at h
  · rename_i logins hmap
    have hl : logins = users.map (fun x => x.login) := by
      refine mapExcept_ok_eq (fun a b hb => ?_) hmap
      split at hb
      · simp at hb
      · split at hb
        · simp at hb
        · cases hb
          exact requireText_ok (by assumption)
    obtain ⟨hr, hnd⟩ := ensureUnique_ok h
    subst hl
    exact ⟨hr, hnd⟩

theorem validateRepositoryStep_ok {U O : List String}
    {acc : List (RepositoryKey × Repository)} {repo : Repository}
    {acc₂ : List (RepositoryKey × Repository)}
    (h : validateRepositoryStep U O acc repo = .ok acc₂) :
    acc₂ = acc ++ [((repo.owner, repo.name), repo)]
    ∧ alookup acc (repo.owner, repo.name) = none := by
  unfold validateRepositoryStep at h
  split at h
  · simp at h
  · rename_i owner howner
    obtain rfl := requireText_ok howner
    split at h
    · simp at h
    · rename_i name hname
      obtain rfl := requireText_ok hname
      split at h
      · split at h
        · simp at h
        · rename_i hns
          have hnone : alookup acc (repo.owner, repo.name) = none := by
            cases hcase : alookup acc (repo.owner, repo.name) <;> simp_all
          split at h
          · simp at h
            exact ⟨h.symm, hnone⟩
          · split at h
            · simp at h
            · split at h
              · simp at h
                exact ⟨h.symm, hnone⟩
              · split at h
                · simp at h
                · simp at h
                  exact ⟨h.symm, hnone⟩
      · simp at h

theorem validateRepositoriesAux_ok {U O : List String} :
    ∀ {repos : List Repository} {acc out : List (RepositoryKey × Repository)},
      foldExcept (validateRepositoryStep U O) acc repos = .ok out →
      out.map Prod.fst = acc.map Prod.fst ++ repos.map (fun r => (r.owner, r.name))
      ∧ ((acc.map Prod.fst).Nodup → (out.map Prod.fst).Nodup) := by
  intro repos
  induction repos with
  | nil =>
    intro acc out h
    simp [foldExcept] at h
    simp [h]
  | cons r rest ih =>
    intro acc out h
    rw [foldExcept] at h
    split at h
    · simp at h
    · rename_i acc₂ hstep
      obtain ⟨hacc₂, hfresh⟩ := validateRepositoryStep_ok hstep
      subst hacc₂
      obtain ⟨hkeys, hnd⟩ := ih h
      constructor
      · simp [hkeys]
      · intro hndacc
        refine hnd ?_
        simp only [List.map_append, List.map_cons, List.map_nil]
        rw [List.nodup_append]
        refine ⟨hndacc, by simp, ?_⟩
        intro a ha hamem
        simp at hamem
        subst hamem
        exact (alookup_eq_none.mp hfresh) ha

theorem validateRepositories_ok {repos : List Repository} {U O : List String}
    {out : List (RepositoryKey × Repository)}
    (h : validateRepositories repos U O = .ok out) :
    out.map Prod.fst = repos.map (fun r => (r.owner, r.name))
    ∧ (repos.map (fun r => (r.owner, r.name))).Nodup := by
  obtain ⟨hkeys, hnd⟩ := validateRepositoriesAux_ok (U := U) (O := O) h
  simp at hkeys
  refine ⟨hkeys, ?_⟩
  rw [← hkeys]
  exact hnd List.nodup_nil

theorem validateTokenStep_ok {U O : List String}
    {R : List (RepositoryKey × Repository)} {acc : List String}
    {tok : AccessToken} {acc₂ : List String}
    (h : validateTokenStep U O R acc tok = .ok acc₂) :
    acc₂ = acc ++ [tok.value] := by
  unfold validateTokenStep at h
  split at h
  · simp at h
  · rename_i value hvalue
    obtain rfl := requireText_ok hvalue
    split at h
    · simp at h
    · rename_i owner howner
      obtain rfl := requireText_ok howner
      split at h
      · split at h
        · simp at h
        · split at h
          · simp at h
          · split at h
            · simp at h
            · split at h
              · simp at h
              · split at h
                · simp at h
                · split at h
                  · simp at h
                    exact h.symm
                  · split at h
                    · simp at h
                      exact h.symm
                    · simp at h
      · simp at h

theorem validateTokensAux_ok {U O : List String}
    {R : List (RepositoryKey × Repository)} :
    ∀ {tokens : List AccessToken} {acc tv : List String},
      foldExcept (validateTokenStep U O R) acc tokens = .ok tv →
      tv = acc ++ tokens.map (fun t => t.value) := by
  intro tokens
  induction tokens with
  | nil =>
    intro acc tv h
    simp [foldExcept] at h
    simp [h]
  | cons t rest ih =>
    intro acc tv h
    rw [foldExcept] at h
    split at h
    · simp at h
    · rename_i acc₂ hstep
      obtain rfl := validateTokenStep_ok hstep
      simpa using ih h

theorem validateTokens_ok {tokens : List AccessToken} {U O : List String}
    {R : List (RepositoryKey × Repository)}
    (h : validateTokens tokens U O R = .ok ()) :
    (tokens.map (fun t => t.value)).Nodup := by
  unfold validateTokens at h
  split at h
  · simp at h
  · rename_i tv hfold
    have htv : tv = tokens.map (fun t => t.value) := by
      simpa using validateTokensAux_ok hfold
    split at h
    · simp at h
    · rename_i s hs
      obtain ⟨-, hnd⟩ := ensureUnique_ok hs
      rwa [htv] at hnd

theorem validateAppStep_ok {U O : List String} {acc : List String}
    {app : GitHubApp} {acc₂ : List String}
    (h : validateAppStep U O acc app = .ok acc₂) :
    acc₂ = acc ++ [app.appSlug] := by
  unfold validateAppStep at h
  split at h
  · simp at h
  · split at h
    · simp at h
    · split at h
      · simp at h
      · split at h
        · simp at h
        · simp at h
          exact h.symm

theorem validateAppsAux_ok {U O : List String} :
    ∀ {apps : List GitHubApp} {acc slugs : List String},
      foldExcept (validateAppStep U O) acc apps = .ok slugs →
      slugs = acc ++ apps.map (fun a => a.appSlug) := by
  intro apps
  induction apps with
  | nil =>
    intro acc slugs h
    simp [foldExcept] at h
    simp [h]
  | cons a rest ih =>
    intro acc slugs h
    rw [foldExcept] at h
    split at h
    · simp at h
    · rename_i acc₂ hstep
      obtain rfl := validateAppStep_ok hstep
      simpa using ih h

theorem validateApps_ok {apps : List GitHubApp} {U O : List String}
    {slugs : List String} (h : validateApps apps U O = .ok slugs) :
    slugs = apps.map (fun a => a.appSlug)
    ∧ (apps.map (fun a => a.appSlug)).Nodup := by
  unfold validateApps at h
  split at h
  · simp at h
  · rename_i raw hfold
    have hraw : raw = apps.map (fun a => a.appSlug) := by
      simpa using validateAppsAux_ok hfold
    obtain ⟨hr, hnd⟩ := ensureUnique_ok h
    subst hraw
    exact ⟨hr, hnd⟩

theorem validateAppInstallationStep_ok {slugs U O : List String}
    {R : List (RepositoryKey × Repository)}
    {state : List String × List String} {inst : AppInstallation}
    {state₂ : List String × List String}
    (h : validateAppInstallationStep slugs U O R state inst = .ok state₂) :
    state₂.1 = state.1 ++ [pyStrInt inst.installationId] := by
  unfold validateAppInstallationStep at h
  split at h
  · simp at h
  · split at h
    · simp at h
    · rename_i slug hslug
      split at h
      · split at h
        · simp at h
        · rename_i account haccount
          split at h
          · split at h
            · simp at h
            · split at h
              · simp at h
              · split at h
                · simp at h
                · split at h
                  · simp at h
                    rw [← h]
                  · split at h
                    · simp at h
                    · split at h
                      · simp at h
                      · simp at h
                        rw [← h]
          · simp at h
      · simp at h

theorem validateAppInstallationsAux_ok {slugs U O : List String}
    {R : List (RepositoryKey × Repository)} :
    ∀ {insts : List AppInstallation} {state out : List String × List String},
      foldExcept (validateAppInstallationStep slugs U O R) state insts = .ok out →
      out.1 = state.1 ++ insts.map (fun i => pyStrInt i.installationId) := by
  intro insts
  induction insts with
  | nil =>
    intro state out h
    simp [foldExcept] at h
    simp [← h]
  | cons i rest ih =>
    intro state out h
    rw [foldExcept] at h
    split at h
    · simp at h
    · rename_i state₂ hstep
      have hs := validateAppInstallationStep_ok hstep
      rw [ih h, hs]
      simp

theorem validateAppInstallations_ok {insts : List AppInstallation}
    {slugs U O : List String} {R : List (RepositoryKey × Repository)}
    {tokens : List AccessToken}
    (h : validateAppInstallations insts slugs U O R tokens = .ok ()) :
    (insts.map (fun i => i.installationId)).Nodup := by
  unfold validateAppInstallations at h
  split at h
  · simp at h
  · rename_i state hfold
    have hids : state.1 = insts.map (fun i => pyStrInt i.installationId) := by
      simpa using validateAppInstallationsAux_ok hfold
    split at h
    · simp at h
    · rename_i s hs
      obtain ⟨-, hnd⟩ := ensureUnique_ok hs
      rw [hids] at hnd
      have : insts.map (fun i => pyStrInt i.installationId)
          = (insts.map (fun i => i.installationId)).map pyStrInt := by
        simp [List.map_map, Function.comp]
      rw [this] at hnd
      exact hnd.of_map pyStrInt

/-- A number already registered for a repository key in the per-repository
duplicate registry. -/
def numberRecorded (reg : NumberRegistry) (k : RepositoryKey) (n : Int) : Prop :=
  n ∈ (alookup reg k).getD []

theorem numberRecorded_mono {reg : NumberRegistry} {k k' : RepositoryKey}
    {n m : Int} (h : numberRecorded reg k n) :
    numberRecorded (upsert reg k' ((alookup reg k').getD [] ++ [m])) k n := by
  unfold numberRecorded at h ⊢
  rw [alookup_upsert]
  by_cases hk : k' = k
  · subst hk
    simp
    left
    exact h
  · rw [if_neg hk]
    exact h

theorem numberRecorded_new (reg : NumberRegistry) (k : RepositoryKey) (n : Int) :
    numberRecorded (upsert reg k ((alookup reg k).getD [] ++ [n])) k n := by
  unfold numberRecorded
  rw [alookup_upsert, if_pos rfl]
  simp

theorem validateIssueStep_ok {R : List (RepositoryKey × Repository)}
    {reg : NumberRegistry} {i : Issue} {reg₂ : NumberRegistry}
    (h : validateIssueStep R reg i = .ok reg₂) :
    reg₂ = upsert reg (i.owner, i.repository)
        ((alookup reg (i.owner, i.repository)).getD [] ++ [i.number])
    ∧ ¬ numberRecorded reg (i.owner, i.repository) i.number := by
  unfold validateIssueStep at h
  split at h
  · simp at h
  · rename_i owner howner
    obtain rfl := requireText_ok howner
    split at h
    · simp at h
    · rename_i repo hrepo
      obtain rfl := requireText_ok hrepo
      split at h
      · simp at h
      · rename_i number hnumber
        obtain rfl := requirePositiveInt_ok hnumber
        split at h
        · simp at h
        · split at h
          · simp at h
          · split at h
            · simp at h
            · split at h
              · simp only [] at h
                split at h
                · simp at h
                · rename_i hnot
                  simp at h
                  exact ⟨h.symm, hnot⟩
              · simp at h

theorem issuesFoldNotRecorded {R : List (RepositoryKey × Repository)} :
    ∀ {issues : List Issue} {reg reg' : NumberRegistry},
      foldExcept (validateIssueStep R) reg issues = .ok reg' →
      ∀ k n, numberRecorded reg k n →
        ∀ i ∈ issues, ¬((i.owner, i.repository) = k ∧ i.number = n) := by
  intro issues
  induction issues with
  | nil => intro reg reg' _ k n _ i hi; simp at hi
  | cons i rest ih =>
    intro reg reg' h k n hrec j hj
    rw [foldExcept] at h
    split at h
    · simp at h
    · rename_i reg₂ hstep
      obtain ⟨hreg₂, hnot⟩ := validateIssueStep_ok hstep
      rcases List.mem_cons.mp hj with hj | hj
      · subst hj
        rintro ⟨hk, hn⟩
        rw [← hk, ← hn] at hrec
        exact hnot hrec
      · subst hreg₂
        exact ih h k n (numberRecorded_mono hrec) j hj

theorem issuesFoldNodup {R : List (RepositoryKey × Repository)} :
    ∀ {issues : List Issue} {reg reg' : NumberRegistry},
      foldExcept (validateIssueStep R) reg issues = .ok reg' →
      (issues.map (fun i => (i.owner, i.repository, i.number))).Nodup := by
  intro issues
  induction issues with
  | nil => intro reg reg' _; simp
  | cons i rest ih =>
    intro reg reg' h
    rw [foldExcept] at h
    split at h
    · simp at h
    · rename_i reg₂ hstep
      obtain ⟨hreg₂, -⟩ := validateIssueStep_ok hstep
      rw [List.map_cons, List.nodup_cons]
      refine ⟨?_, ih h⟩
      intro hmem
      obtain ⟨j, hj, he⟩ := List.mem_map.mp hmem
      have hrec : numberRecorded reg₂ (i.owner, i.repository) i.number := by
        rw [hreg₂]
        exact numberRecorded_new reg (i.owner, i.repository) i.number
      refine issuesFoldNotRecorded h (i.owner, i.repository) i.number hrec j hj ?_
      simp at he
      simp [he]

theorem validateIssues_ok {issues : List Issue}
    {R : List (RepositoryKey × Repository)}
    (h : validateIssues issues R = .ok ()) :
    (issues.map (fun i => (i.owner, i.repository, i.number))).Nodup := by
  unfold validateIssues at h
  split at h
  · simp at h
  · exact issuesFoldNodup (by assumption)

theorem validatePullRequestStep_ok {R : List (RepositoryKey × Repository)}
    {B : BranchIndex} {reg : NumberRegistry} {pr : PullRequest}
    {reg₂ : NumberRegistry}
    (h : validatePullRequestStep R B reg pr = .ok reg₂) :
    reg₂ = upsert reg (pr.owner, pr.repository)
        ((alookup reg (pr.owner, pr.repository)).getD [] ++ [pr.number])
    ∧ ¬ numberRecorded reg (pr.owner, pr.repository) pr.number := by
  unfold validatePullRequestStep at h
  split at h
  · simp at h
  · rename_i owner howner
    obtain rfl := requireText_ok howner
    split at h
    · simp at h
    · rename_i repo hrepo
      obtain rfl := requireText_ok hrepo
      split at h
      · simp at h
      · rename_i number hnumber
        obtain rfl := requirePositiveInt_ok hnumber
        split at h
        · simp at h
        · split at h
          · simp at h
          · split at h
            · simp at h
            · split at h
              · simp only [] at h
                split at h
                · simp at h
                · rename_i hnot
                  split at h
                  · simp at h
                  · simp at h
                    exact ⟨h.symm, hnot⟩
              · simp at h

theorem prsFoldNotRecorded {R : List (RepositoryKey × Repository)}
    {B : BranchIndex} :
    ∀ {prs : List PullRequest} {reg reg' : NumberRegistry},
      foldExcept (validatePullRequestStep R B) reg prs = .ok reg' →
      ∀ k n, numberRecorded reg k n →
        ∀ p ∈ prs, ¬((p.owner, p.repository) = k ∧ p.number = n) := by
  intro prs
  induction prs with
  | nil => intro reg reg' _ k n _ p hp; simp at hp
  | cons p rest ih =>
    intro reg reg' h k n hrec q hq
    rw [foldExcept] at h
    split at h
    · simp at h
    · rename_i reg₂ hstep
      obtain ⟨hreg₂, hnot⟩ := validatePullRequestStep_ok hstep
      rcases List.mem_cons.mp hq with hq | hq
      · subst hq
        rintro ⟨hk, hn⟩
        rw [← hk, ← hn] at hrec
        exact hnot hrec
      · subst hreg₂
        exact ih h k n (numberRecorded_mono hrec) q hq

theorem prsFoldNodup {R : List (RepositoryKey × Repository)} {B : BranchIndex} :
    ∀ {prs : List PullRequest} {reg reg' : NumberRegistry},
      foldExcept (validatePullRequestStep R B) reg prs = .ok reg' →
      (prs.map (fun p => (p.owner, p.repository, p.number))).Nodup := by
  intro prs
  induction prs with
  | nil => intro reg reg' _; simp
  | cons p rest ih =>
    intro reg reg' h
    rw [foldExcept] at h
    split at h
    · simp at h
    · rename_i reg₂ hstep
      obtain ⟨hreg₂, -⟩ := validatePullRequestStep_ok hstep
      rw [List.map_cons, List.nodup_cons]
      refine ⟨?_, ih h⟩
      intro hmem
      obtain ⟨q, hq, he⟩ := List.mem_map.mp hmem
      have hrec : numberRecorded reg₂ (p.owner, p.repository) p.number := by
        rw [hreg₂]
        exact numberRecorded_new reg (p.owner, p.repository) p.number
      refine prsFoldNotRecorded h (p.owner, p.repository) p.number hrec q hq ?_
      simp at he
      simp [he]

theorem validatePullRequests_ok {prs : List PullRequest}
    {R : List (RepositoryKey × Repository)} {B : BranchIndex}
    (h : validatePullRequests prs R B = .ok ()) :
    (prs.map (fun p => (p.owner, p.repository, p.number))).Nodup := by
  unfold validatePullRequests at h
  split at h
  · simp at h
  · exact prsFoldNodup (by assumption)

/-- Well-formedness of the branch index: distinct repository keys, and
distinct branch names within each per-repository map. -/
def branchIndexWF (bi : BranchIndex) : Prop :=
  (bi.map Prod.fst).Nodup ∧ ∀ p ∈ bi, ((p.2).map Prod.fst).Nodup

theorem branchIndexWF_nil : branchIndexWF [] := by
  constructor
  · simp
  · intro p hp
    simp at hp

theorem branchIndexWF_lookup {bi : BranchIndex} (h : branchIndexWF bi)
    (key : RepositoryKey) : (((alookup bi key).getD []).map Prod.fst).Nodup := by
  cases hc : alookup bi key with
  | none => simp
  | some rb => exact h.2 (key, rb) (alookup_mem hc)

theorem branchIndexWF_upsert {bi : BranchIndex} {key : RepositoryKey}
    {rb : BranchMap} (h : branchIndexWF bi) (hrb : (rb.map Prod.fst).Nodup) :
    branchIndexWF (upsert bi key rb) := by
  constructor
  · exact upsert_map_fst_nodup h.1 key rb
  · intro p hp
    rcases upsert_mem hp with hp | hp
    · subst hp
      exact hrb
    · exact h.2 p hp

theorem validateExplicitBranchStep_wf {R : List (RepositoryKey × Repository)}
    {bi : BranchIndex} {b : Branch} {bi₂ : BranchIndex}
    (h : validateExplicitBranchStep R bi b = .ok bi₂) (hwf : branchIndexWF bi) :
    branchIndexWF bi₂ := by
  unfold validateExplicitBranchStep at h
  split at h
  · simp at h
  · rename_i key hkey
    simp only [] at h
    split at h
    · simp at h
    · simp at h
      subst h
      exact branchIndexWF_upsert hwf
        (upsert_map_fst_nodup (branchIndexWF_lookup hwf key) b.name b)

theorem mergeDefaultBranch_wf {key : RepositoryKey} {db : DefaultBranch}
    {bi : BranchIndex} {bi₂ : BranchIndex}
    (h : mergeDefaultBranch key db bi = .ok bi₂) (hwf : branchIndexWF bi) :
    branchIndexWF bi₂ := by
  unfold mergeDefaultBranch at h
  simp only [] at h
  split at h
  · simp at h
    subst h
    exact branchIndexWF_upsert hwf
      (upsert_map_fst_nodup (branchIndexWF_lookup hwf key) _ _)
  · split at h
    · simp at h
    · simp at h
      subst h
      exact branchIndexWF_upsert hwf
        (upsert_map_fst_nodup (branchIndexWF_lookup hwf key) _ _)

theorem foldExcept_preserves {σ α : Type} {f : σ → α → Except String σ}
    {P : σ → Prop} (hf : ∀ s a s₂, f s a = .ok s₂ → P s → P s₂) :
    ∀ {xs : List α} {acc out : σ}, foldExcept f acc xs = .ok out → P acc → P out := by
  intro xs
  induction xs with
  | nil =>
    intro acc out h hP
    simp [foldExcept] at h
    rwa [← h]
  | cons a as ih =>
    intro acc out h hP
    rw [foldExcept] at h
    split at h
    · simp at h
    · rename_i s₂ hstep
      exact ih h (hf _ _ _ hstep hP)

theorem validateBranches_wf {branches : List Branch}
    {R : List (RepositoryKey × Repository)} {bi : BranchIndex}
    (h : validateBranches branches R = .ok bi) : branchIndexWF bi := by
  unfold validateBranches at h
  split at h
  · simp at h
  · rename_i bi₁ hexp
    have hwf₁ : branchIndexWF bi₁ := by
      refine foldExcept_preserves
        (fun s a s₂ hs hP => validateExplicitBranchStep_wf hs hP) hexp
        branchIndexWF_nil
    refine foldExcept_preserves (P := branchIndexWF)
      (fun s entry s₂ hs hP => ?_) h hwf₁
    revert hs
    cases entry.2.defaultBranch with
    | none =>
      intro hs
      simp at hs
      rwa [← hs]
    | some db =>
      intro hs
      exact mergeDefaultBranch_wf hs hP

/-- C4 counterexample: a scenario listing the *same* branch identity key
`(alice, demo, main)` twice validates successfully — duplicate branch
entries with compatible metadata are merged (the later overwrites the
earlier), not rejected, contrary to the claim. -/
theorem validate_unique_identity_keys_cex :
    ScenarioConfig.validate
        { users := [{ login := "alice" }],
          repositories := [{ owner := "alice", name := "demo" }],
          branches :=
            [{ owner := "alice", repository := "demo", name := "main" },
             { owner := "alice", repository := "demo", name := "main" }] }
      = .ok ()
    ∧ (([{ owner := "alice", repository := "demo", name := "main" },
         { owner := "alice", repository := "demo", name := "main" }] : List Branch).map
          (fun b => (b.owner, b.repository, b.name)))
      = [("alice", "demo", "main"), ("alice", "demo", "main")] :=
  ⟨by rfl, by rfl⟩

/-- C4 (amended): for every scenario that validates, the identity keys are
pairwise distinct within every entity collection except branches (user
login, organization login, repository (owner, name), token value, app
slug, installation id, per-repository issue and pull-request identity);
duplicate keys in any of those collections therefore make `validate`
raise. Duplicate branch identity keys are *not* rejected when their
metadata is compatible — the later entry overwrites the earlier — and the
built indexes contain exactly one entry per distinct identity key (the
repository index carries each repository key once, and the branch index
carries each repository key and each per-repository branch name once). -/
theorem validate_unique_identity_keys (s : ScenarioConfig)
    (h : s.validate = .ok ()) :
    (s.organizations.map (fun o => o.login)).Nodup
    ∧ (s.users.map (fun u => u.login)).Nodup
    ∧ (s.repositories.map (fun r => (r.owner, r.name))).Nodup
    ∧ (s.tokens.map (fun t => t.value)).Nodup
    ∧ (s.apps.map (fun a => a.appSlug)).Nodup
    ∧ (s.appInstallations.map (fun i => i.installationId)).Nodup
    ∧ (s.issues.map (fun i => (i.owner, i.repository, i.number))).Nodup
    ∧ (s.pullRequests.map (fun p => (p.owner, p.repository, p.number))).Nodup
    ∧ ∀ ix, buildIndexes s = .ok ix →
        ix.repoIndex.map Prod.fst = s.repositories.map (fun r => (r.owner, r.name))
        ∧ (ix.repoIndex.map Prod.fst).Nodup
        ∧ (ix.branchIndex.map Prod.fst).Nodup
        ∧ ∀ p ∈ ix.branchIndex, ((p.2).map Prod.fst).Nodup := by
  unfold ScenarioConfig.validate at h
  split at h
  · simp at h
  · rename_i ix hix
    have hix0 := hix
    simp only [if_true] at h
    split at h
    · simp at h
    · rename_i hv hissues
      have hprs := h
      unfold buildIndexes at hix
      split at hix
      · simp at hix
      · rename_i o ho
        split at hix
        · simp at hix
        · rename_i u hu
          split at hix
          · simp at hix
          · rename_i r hr
            split at hix
            · simp at hix
            · rename_i tu ht
              split at hix
              · simp at hix
              · rename_i a ha
                split at hix
                · simp at hix
                · rename_i iu hi
                  split at hix
                  · simp at hix
                  · split at hix
                    · simp at hix
                    · rename_i b hb
                      injection hix with hix
                      subst hix
                      obtain ⟨-, hndo⟩ := validateOrganizations_ok ho
                      obtain ⟨-, hndu⟩ := validateUsers_ok hu
                      obtain ⟨hrk, hndr⟩ := validateRepositories_ok hr
                      have hndt := validateTokens_ok ht
                      obtain ⟨-, hnda⟩ := validateApps_ok ha
                      have hndi := validateAppInstallations_ok hi
                      have hndis := validateIssues_ok hissues
                      have hndpr := validatePullRequests_ok hprs
                      have hwfb := validateBranches_wf hb
                      refine ⟨hndo, hndu, hndr, hndt, hnda, hndi, hndis, hndpr, ?_⟩
                      intro ix' hix'
                      rw [hix0] at hix'
                      injection hix' with hix'
                      subst hix'
                      exact ⟨hrk, by rw [hrk]; exact hndr, hwfb.1, hwfb.2⟩

/-- C4 witness: a scenario with two distinct tokens (and an explicit
default) validates, so its token values are pairwise distinct. -/
theorem validate_unique_identity_keys_witness :
    (([{ value := "t1", owner := "alice" },
       { value := "t2", owner := "alice" }] : List AccessToken).map
        (fun t => t.value)).Nodup :=
  (validate_unique_identity_keys
      { users := [{ login := "alice" }],
        tokens := [{ value := "t1", owner := "alice" },
                   { value := "t2", owner := "alice" }],
        defaultToken := some "t1" }
      (by rfl)).2.2.2.1
